import Mathlib

/-!
Verification of the IEC 61850 GOOSE / SMV codec library.

Bytes are modelled as natural numbers (values below 256) and byte buffers as
lists of naturals.  Rust functions that mutate a caller-supplied buffer are
embedded as functions returning the updated buffer together with the new
position; Rust Result values become Except, and Rust panics become an explicit
panic constructor so that panicking behaviour is observable.
-/

set_option maxRecDepth 10000

/-- A byte buffer write: copy the byte list bs into buf starting at index idx,
keeping the rest of the buffer.  This is the effect of consecutive
element/slice assignments in the Rust sources (bounds are always checked by
the callers before writing). -/
def writeBytes (buf : List Nat) (idx : Nat) (bs : List Nat) : List Nat :=
  buf.take idx ++ bs ++ buf.drop (idx + bs.length)

/-- Bit reversal of a byte, as u8 reverse_bits in Rust (valid for b < 256). -/
def reverseBits8 (b : Nat) : Nat :=
  (b % 2) * 128 + (b / 2 % 2) * 64 + (b / 4 % 2) * 32 + (b / 8 % 2) * 16 +
  (b / 16 % 2) * 8 + (b / 32 % 2) * 4 + (b / 64 % 2) * 2 + (b / 128 % 2)

/-- Big-endian bytes of a natural number at a fixed width, the effect of
Rust to_be_bytes on fixed-width integers. -/
def natToBeBytes : Nat → Nat → List Nat
  | 0, _ => []
  | w + 1, v => natToBeBytes w (v / 256) ++ [v % 256]

/-- Big-endian bytes of a signed integer at a fixed width
(two's complement), the effect of Rust to_be_bytes on iN values. -/
def intToBeBytes (w : Nat) (v : Int) : List Nat :=
  natToBeBytes w (v.emod (2 ^ (8 * w))).toNat

/-- Reads a big-endian byte list as an unsigned number, the effect of
Rust uN::from_be_bytes. -/
def beBytesToNat (bs : List Nat) : Nat :=
  bs.foldl (fun acc b => acc * 256 + b) 0

/-- Reads a big-endian byte list as a two's complement signed number. -/
def beBytesToInt (bs : List Nat) : Int :=
  match bs with
  | [] => 0
  | b :: _ =>
    if 128 ≤ b then (beBytesToNat bs : Int) - 2 ^ (8 * bs.length)
    else (beBytesToNat bs : Int)

/-- The EncodeError type of src/src/types.rs (message text is kept but plays
no role in the proofs). -/
inductive EncodeError where
  | general (message : String) (buffer_index : Nat)
  | bufferTooSmall (required : Nat) (available : Nat)
deriving DecidableEq, Repr

/-- The DecodeError type of src/src/types.rs. -/
structure DecodeError where
  message : String
  buffer_index : Nat
deriving DecidableEq, Repr

/-- Result of a Rust function that can panic: either a normal value or a
panic with its message. -/
inductive PanicOr (α : Type) where
  | panic (msg : String) : PanicOr α
  | ok (val : α) : PanicOr α
deriving DecidableEq, Repr

/-- True when the computation panicked. -/
def PanicOr.isPanic {α : Type} : PanicOr α → Bool
  | .panic _ => true
  | .ok _ => false

instance {ε α : Type} [DecidableEq ε] [DecidableEq α] :
    DecidableEq (Except ε α) :=
  fun a b =>
    match a, b with
    | .error x, .error y =>
      if h : x = y then isTrue (by rw [h])
      else isFalse (by intro hc; cases hc; exact h rfl)
    | .ok x, .ok y =>
      if h : x = y then isTrue (by rw [h])
      else isFalse (by intro hc; cases hc; exact h rfl)
    | .error _, .ok _ => isFalse (by intro hc; cases hc)
    | .ok _, .error _ => isFalse (by intro hc; cases hc)

namespace EncodeBasics

/-! Embedding of src/src/encode_basics.rs. -/

/-- minimal_twos_complement_bytes: strip leading 0x00 bytes followed by a
clear sign bit, or leading 0xFF bytes followed by a set sign bit. -/
def minimal_twos_complement_bytes : List Nat → List Nat
  | a :: b :: rest =>
    if (a == 0 && b &&& 128 == 0) || (a == 255 && b &&& 128 == 128) then
      minimal_twos_complement_bytes (b :: rest)
    else a :: b :: rest
  | l => l

/-- size_length: number of bytes of the BER length field chosen by the
source (note the 65535 threshold in the code). -/
def size_length (value : Nat) : Nat :=
  if value < 128 then 1
  else if value < 256 then 2
  else if value < 65535 then 3
  else 4

/-- encode_tag_length: write the tag byte and the BER length field. -/
def encode_tag_length (tag : Nat) (value : Nat) (buffer : List Nat)
    (buffer_index : Nat) : Except EncodeError (List Nat × Nat) :=
  let required := 1 + size_length value
  if buffer.length < buffer_index + required then
    .error (.general "Buffer too small to write tag and length." buffer_index)
  else if value < 128 then
    .ok (writeBytes buffer buffer_index [tag, value], buffer_index + 2)
  else if value < 256 then
    .ok (writeBytes buffer buffer_index [tag, 0x81, value], buffer_index + 3)
  else if value < 65535 then
    .ok (writeBytes buffer buffer_index
      [tag, 0x82, value >>> 8 % 256, value % 256], buffer_index + 4)
  else if 1 <<< 24 ≤ value then
    .error (.general
      "Value exceeds the maximum range for three-byte encoding." buffer_index)
  else
    .ok (writeBytes buffer buffer_index
      [tag, 0x83, value >>> 16 % 256, value >>> 8 % 256, value % 256],
      buffer_index + 5)

/-- encode_ber: tag, length and content bytes. -/
def encode_ber (tag : Nat) (value : List Nat) (buffer : List Nat)
    (buffer_index : Nat) : Except EncodeError (List Nat × Nat) :=
  let length_field_size := size_length value.length
  let total_size := 1 + length_field_size + value.length
  if buffer.length < buffer_index + total_size then
    .error (.general
      "Buffer does not have enough capacity to encode the BER element."
      buffer_index)
  else
    match encode_tag_length tag value.length buffer buffer_index with
    | .error e => .error e
    | .ok (buf1, pos) => .ok (writeBytes buf1 pos value, pos + value.length)

/-- encode_boolean: tag, length 1, 0xff or 0x00. -/
def encode_boolean (tag : Nat) (value : Bool) (buffer : List Nat)
    (buffer_index : Nat) : Except EncodeError (List Nat × Nat) :=
  if buffer.length < buffer_index + 3 then
    .error (.general
      "Buffer does not have enough capacity to encode the boolean value."
      buffer_index)
  else
    .ok (writeBytes buffer buffer_index [tag, 1, if value then 255 else 0],
      buffer_index + 3)

/-- encode_string: strings are modelled by their UTF-8 byte lists. -/
def encode_string (tag : Nat) (value : List Nat) (buffer : List Nat)
    (buffer_index : Nat) : Except EncodeError (List Nat × Nat) :=
  encode_ber tag value buffer buffer_index

/-- encode_octet_string. -/
def encode_octet_string (tag : Nat) (value : List Nat) (buffer : List Nat)
    (buffer_index : Nat) : Except EncodeError (List Nat × Nat) :=
  encode_ber tag value buffer buffer_index

/-- encode_integer: minimal two's complement content. -/
def encode_integer (tag : Nat) (value : List Nat) (buffer : List Nat)
    (buffer_index : Nat) : Except EncodeError (List Nat × Nat) :=
  encode_ber tag (minimal_twos_complement_bytes value) buffer buffer_index

/-- encode_unsigned_integer of encode_basics.rs: note that it reuses the
signed stripper minimal_twos_complement_bytes (which also strips leading
0xFF bytes), then prepends 0x00 when the first remaining byte has its top
bit set. -/
def encode_unsigned_integer (tag : Nat) (value : List Nat)
    (buffer : List Nat) (buffer_index : Nat) :
    Except EncodeError (List Nat × Nat) :=
  let minimal := minimal_twos_complement_bytes value
  match minimal with
  | [] => encode_ber tag minimal buffer buffer_index
  | m0 :: _ =>
    if m0 &&& 128 ≠ 0 then
      encode_ber tag (0 :: minimal) buffer buffer_index
    else
      encode_ber tag minimal buffer buffer_index

/-- encode_float: tag, length 5, descriptor 0x08, four IEEE 754 bytes. -/
def encode_float (tag : Nat) (bytes : List Nat) (buffer : List Nat)
    (buffer_index : Nat) : Except EncodeError (List Nat × Nat) :=
  if bytes.length ≠ 4 then
    .error (.general
      "encode_float expects a 4-byte IEEE 754 single-precision float."
      buffer_index)
  else if buffer.length < buffer_index + 6 then
    .error (.general
      "Buffer does not have enough capacity to encode the float value."
      buffer_index)
  else
    .ok (writeBytes buffer buffer_index (tag :: 5 :: 8 :: bytes),
      buffer_index + 6)

/-- encode_coded_enum: tag, length, padding byte, then the value bytes in
reverse order with the bits of each byte reversed. -/
def encode_coded_enum (tag : Nat) (value : List Nat) (padding : Nat)
    (buffer : List Nat) (buffer_index : Nat) :
    Except EncodeError (List Nat × Nat) :=
  let total_len := value.length + 1
  let required := 1 + size_length total_len + total_len
  if buffer.length < buffer_index + required then
    .error (.general "Buffer too small to encode coded enum BIT STRING."
      buffer_index)
  else
    match encode_tag_length tag total_len buffer buffer_index with
    | .error e => .error e
    | .ok (buf1, pos) =>
      .ok (writeBytes buf1 pos (padding :: (value.reverse.map reverseBits8)),
        pos + 1 + value.length)

/-- minimal_integer_size: length of the stripped two's complement form. -/
def minimal_integer_size : List Nat → Nat
  | a :: b :: rest =>
    if (a == 0 && b &&& 128 == 0) || (a == 255 && b &&& 128 == 128) then
      minimal_integer_size (b :: rest)
    else (a :: b :: rest).length
  | l => l.length

/-- minimal_unsigned_size: strip leading zeros only, then add one for the
0x00 prefix when the first remaining byte has its top bit set. -/
def minimal_unsigned_size : List Nat → Nat
  | 0 :: b :: rest => minimal_unsigned_size (b :: rest)
  | [] => 0
  | m :: rest => if m &&& 128 ≠ 0 then (m :: rest).length + 1
                 else (m :: rest).length

end EncodeBasics

/-- The IECData value type used by src/src/encode_basics.rs and
src/src/decode_basics.rs.  Fixed-width integer payloads carry the
mathematical value; float payloads carry the IEEE 754 byte lists; strings
carry their UTF-8 byte lists. -/
inductive IECData where
  | Boolean (b : Bool)
  | Int8 (v : Int)
  | Int16 (v : Int)
  | Int32 (v : Int)
  | Int64 (v : Int)
  | Int8u (v : Nat)
  | Int16u (v : Nat)
  | Int32u (v : Nat)
  | Float32 (bytes : List Nat)
  | Float64 (bytes : List Nat)
  | VisibleString (s : List Nat)
  | MmsString (s : List Nat)
  | BitString (padding : Nat) (val : List Nat)
  | Array (elems : List IECData)
  | Structure (elems : List IECData)
  | OctetString (bytes : List Nat)
  | UtcTime (bytes : List Nat)

namespace EncodeBasics

mutual

/-- size_iec_data_element of encode_basics.rs (the catch-all arm of the
source returns 0, which here covers Float64). -/
def size_iec_data_element : IECData → Nat
  | .Boolean _ => 3
  | .Int8 v =>
    let s := minimal_integer_size (intToBeBytes 1 v)
    1 + size_length s + s
  | .Int16 v =>
    let s := minimal_integer_size (intToBeBytes 2 v)
    1 + size_length s + s
  | .Int32 v =>
    let s := minimal_integer_size (intToBeBytes 4 v)
    1 + size_length s + s
  | .Int64 v =>
    let s := minimal_integer_size (intToBeBytes 8 v)
    1 + size_length s + s
  | .Int8u v =>
    let s := minimal_unsigned_size (natToBeBytes 1 v)
    1 + size_length s + s
  | .Int16u v =>
    let s := minimal_unsigned_size (natToBeBytes 2 v)
    1 + size_length s + s
  | .Int32u v =>
    let s := minimal_unsigned_size (natToBeBytes 4 v)
    1 + size_length s + s
  | .Float32 _ => 1 + size_length 5 + 5
  | .VisibleString s => 1 + size_length s.length + s.length
  | .MmsString s => 1 + size_length s.length + s.length
  | .BitString _ val => 1 + size_length (val.length + 1) + 1 + val.length
  | .Array val =>
    let c := size_iec_list val
    1 + size_length c + c
  | .Structure val =>
    let c := size_iec_list val
    1 + size_length c + c
  | .OctetString v => 1 + size_length v.length + v.length
  | .UtcTime v => 1 + size_length v.length + v.length
  | .Float64 _ => 0

/-- Sum of element sizes, the loop in encode_structure and size_iec_data. -/
def size_iec_list : List IECData → Nat
  | [] => 0
  | d :: ds => size_iec_data_element d + size_iec_list ds

end

mutual

/-- encode_iec_data_element of encode_basics.rs.  The source has no arm for
Float64, so it falls into the catch-all that reports an unknown type. -/
def encode_iec_data_element : IECData → List Nat → Nat →
    Except EncodeError (List Nat × Nat)
  | .Boolean v, buffer, idx => encode_boolean 0x83 v buffer idx
  | .Int8 v, buffer, idx => encode_integer 0x85 (intToBeBytes 1 v) buffer idx
  | .Int16 v, buffer, idx => encode_integer 0x85 (intToBeBytes 2 v) buffer idx
  | .Int32 v, buffer, idx => encode_integer 0x85 (intToBeBytes 4 v) buffer idx
  | .Int64 v, buffer, idx => encode_integer 0x85 (intToBeBytes 8 v) buffer idx
  | .Int8u v, buffer, idx =>
    encode_unsigned_integer 0x86 (natToBeBytes 1 v) buffer idx
  | .Int16u v, buffer, idx =>
    encode_unsigned_integer 0x86 (natToBeBytes 2 v) buffer idx
  | .Int32u v, buffer, idx =>
    encode_unsigned_integer 0x86 (natToBeBytes 4 v) buffer idx
  | .Float32 bytes, buffer, idx => encode_float 0x87 bytes buffer idx
  | .VisibleString s, buffer, idx => encode_string 0x8a s buffer idx
  | .MmsString s, buffer, idx => encode_string 0x90 s buffer idx
  | .BitString padding val, buffer, idx =>
    encode_coded_enum 0x84 val padding buffer idx
  | .Array val, buffer, idx => encode_structure 0xa1 val buffer idx
  | .Structure val, buffer, idx => encode_structure 0xa2 val buffer idx
  | .OctetString v, buffer, idx => encode_octet_string 0x89 v buffer idx
  | .UtcTime v, buffer, idx => encode_octet_string 0x91 v buffer idx
  | .Float64 _, _, idx => .error (.general "Unknown IECData type." idx)

/-- encode_structure of encode_basics.rs: writes the tag and the summed
length, then encodes the elements with unwrap_or on each result, so element
errors are dropped and the position is kept.  Failed element encoders have
not written to the buffer (each checks capacity before writing), so keeping
the old buffer and position matches the Rust behaviour. -/
def encode_structure (tag : Nat) (value : List IECData) (buffer : List Nat)
    (pos : Nat) : Except EncodeError (List Nat × Nat) :=
  let element_size := size_iec_list value
  match encode_tag_length tag element_size buffer pos with
  | .error e => .error e
  | .ok (buf1, new_pos) => .ok (encode_structure_loop value buf1 new_pos)

/-- The element loop of encode_structure with its unwrap_or semantics. -/
def encode_structure_loop : List IECData → List Nat → Nat → (List Nat × Nat)
  | [], buffer, pos => (buffer, pos)
  | d :: ds, buffer, pos =>
    match encode_iec_data_element d buffer pos with
    | .ok (b, p) => encode_structure_loop ds b p
    | .error _ => encode_structure_loop ds buffer pos

end

end EncodeBasics

namespace DecodeBasics

/-! Embedding of src/src/decode_basics.rs.  These are the hand-rolled
decode primitives with out-parameters; on malformed or truncated input
they panic (each has a Panics section in its documentation), which the
embedding records through the PanicOr result. -/

/-- decode_boolean: read one byte at the index, nonzero is true. -/
def decode_boolean (buffer : List Nat) (buffer_index : Nat) :
    PanicOr (Bool × Nat) :=
  if buffer.length ≤ buffer_index then
    .panic "Position is out of bounds for buffer"
  else
    .ok (buffer.getD buffer_index 0 ≠ 0, buffer_index + 1)

/-- decode_string: lossy UTF-8 decoding is modelled as the raw byte list. -/
def decode_string (buffer : List Nat) (buffer_index length : Nat) :
    PanicOr (List Nat × Nat) :=
  if buffer.length < buffer_index + length then
    .panic "Attempt to read bytes exceeds buffer length"
  else
    .ok ((buffer.drop buffer_index).take length, buffer_index + length)

/-- decode_octet_string with an output slice of the given width: the source
copies into val with index range 0..length, which panics when length
exceeds the output width; the remaining output bytes keep their zero
initialisation. -/
def decode_octet_string (width : Nat) (buffer : List Nat)
    (buffer_index length : Nat) : PanicOr (List Nat × Nat) :=
  if buffer.length < buffer_index + length then
    .panic "Attempt to read bytes exceeds buffer length"
  else if width < length then
    .panic "copy_from_slice range out of bounds"
  else
    .ok ((buffer.drop buffer_index).take length ++
      List.replicate (width - length) 0, buffer_index + length)

/-- decompress_integer: sign-extend the encoded bytes to the output width. -/
def decompress_integer (width : Nat) (buffer : List Nat)
    (buffer_index length : Nat) : PanicOr (List Nat) :=
  if buffer.length < buffer_index + length then
    .panic "Attempt to read bytes exceeds buffer length"
  else if width < length then
    .panic "Encoded integer length exceeds output buffer size"
  else
    let fill := if buffer.getD buffer_index 0 &&& 128 == 128 then 255 else 0
    .ok (List.replicate (width - length) fill ++
      (buffer.drop buffer_index).take length)

/-- decode_integer_8. -/
def decode_integer_8 (buffer : List Nat) (buffer_index length : Nat) :
    PanicOr (Int × Nat) :=
  match decompress_integer 1 buffer buffer_index length with
  | .panic m => .panic m
  | .ok bs => .ok (beBytesToInt bs, buffer_index + length)

/-- decode_integer_16. -/
def decode_integer_16 (buffer : List Nat) (buffer_index length : Nat) :
    PanicOr (Int × Nat) :=
  match decompress_integer 2 buffer buffer_index length with
  | .panic m => .panic m
  | .ok bs => .ok (beBytesToInt bs, buffer_index + length)

/-- decode_integer_32. -/
def decode_integer_32 (buffer : List Nat) (buffer_index length : Nat) :
    PanicOr (Int × Nat) :=
  match decompress_integer 4 buffer buffer_index length with
  | .panic m => .panic m
  | .ok bs => .ok (beBytesToInt bs, buffer_index + length)

/-- decode_integer_64. -/
def decode_integer_64 (buffer : List Nat) (buffer_index length : Nat) :
    PanicOr (Int × Nat) :=
  match decompress_integer 8 buffer buffer_index length with
  | .panic m => .panic m
  | .ok bs => .ok (beBytesToInt bs, buffer_index + length)

/-- decode_unsigned_8. -/
def decode_unsigned_8 (buffer : List Nat) (buffer_index length : Nat) :
    PanicOr (Nat × Nat) :=
  match decompress_integer 1 buffer buffer_index length with
  | .panic m => .panic m
  | .ok bs => .ok (beBytesToNat bs, buffer_index + length)

/-- decode_unsigned_16. -/
def decode_unsigned_16 (buffer : List Nat) (buffer_index length : Nat) :
    PanicOr (Nat × Nat) :=
  match decompress_integer 2 buffer buffer_index length with
  | .panic m => .panic m
  | .ok bs => .ok (beBytesToNat bs, buffer_index + length)

/-- decode_unsigned_32. -/
def decode_unsigned_32 (buffer : List Nat) (buffer_index length : Nat) :
    PanicOr (Nat × Nat) :=
  match decompress_integer 4 buffer buffer_index length with
  | .panic m => .panic m
  | .ok bs => .ok (beBytesToNat bs, buffer_index + length)

/-- decode_float_32: skip the descriptor byte and return the 4 IEEE bytes. -/
def decode_float_32 (buffer : List Nat) (buffer_index length : Nat) :
    PanicOr (List Nat × Nat) :=
  if buffer.length < buffer_index + 5 then
    .panic "Attempt to read 4 bytes for f32 exceeds buffer length"
  else
    .ok ((buffer.drop (buffer_index + 1)).take 4, buffer_index + length)

/-- decode_float_64: skip the descriptor byte and return the 8 IEEE bytes. -/
def decode_float_64 (buffer : List Nat) (buffer_index length : Nat) :
    PanicOr (List Nat × Nat) :=
  if buffer.length < buffer_index + 9 then
    .panic "Attempt to read 8 bytes for f64 exceeds buffer length"
  else
    .ok ((buffer.drop (buffer_index + 1)).take 8, buffer_index + length)

/-- decode_bit_string: read the padding byte and then the value bytes in
reverse order with the bits of each byte reversed.  The source assigns
val at index value_len - i - 1 from buffer at buffer_index + 1 + i, which
is expressed here as a map over the output positions. -/
def decode_bit_string (buffer : List Nat) (buffer_index length : Nat) :
    PanicOr (List Nat × Nat × Nat) :=
  if buffer.length < buffer_index + length then
    .panic "Attempt to read bytes exceeds buffer length"
  else
    let padding := buffer.getD buffer_index 0
    let value_len := length - 1
    let val := (List.range value_len).map (fun j =>
      reverseBits8 (buffer.getD (buffer_index + 1 + (value_len - 1 - j)) 0))
    .ok (val, padding, buffer_index + length)

/-- decode_tag_length: read the tag byte and the BER definite length, with
long forms of one to three length bytes. -/
def decode_tag_length (buffer : List Nat) (buffer_index : Nat) :
    PanicOr (Nat × Nat × Nat) :=
  if buffer.length ≤ buffer_index then
    .panic "decode_tag_length: buffer_index out of bounds"
  else
    let tag := buffer.getD buffer_index 0
    let pos := buffer_index + 1
    if buffer.length ≤ pos then
      .panic "decode_tag_length: missing length byte after tag"
    else
      let first_len_byte := buffer.getD pos 0
      let pos := pos + 1
      if first_len_byte &&& 128 == 0 then
        .ok (tag, first_len_byte, pos)
      else
        let num_len_bytes := first_len_byte &&& 127
        if num_len_bytes == 0 || 3 < num_len_bytes then
          .panic "decode_tag_length: unsupported or invalid number of length bytes"
        else if buffer.length < pos + num_len_bytes then
          .panic "decode_tag_length: not enough bytes for length"
        else
          let len := ((buffer.drop pos).take num_len_bytes).foldl
            (fun l b => l <<< 8 ||| b) 0
          .ok (tag, len, pos + num_len_bytes)

mutual

/-- decode_iec_data_element: dispatch on the tag byte; unknown tags,
oversize integers and unexpected float widths panic.  The fuel argument
only bounds the recursion into nested arrays and structures; any fuel of
at least the buffer length is enough, since every element consumes at
least two bytes. -/
def decode_iec_data_element : Nat → List Nat → Nat → PanicOr (Nat × IECData)
  | 0, _, _ => .panic "recursion fuel exhausted"
  | fuel + 1, buffer, buffer_index =>
    match decode_tag_length buffer buffer_index with
    | .panic m => .panic m
    | .ok (tag, length, p) =>
      if tag == 0x83 then
        match decode_boolean buffer p with
        | .panic m => .panic m
        | .ok (b, np) => .ok (np, .Boolean b)
      else if tag == 0x85 then
        if length == 1 then
          match decode_integer_8 buffer p length with
          | .panic m => .panic m
          | .ok (v, np) => .ok (np, .Int8 v)
        else if length == 2 then
          match decode_integer_16 buffer p length with
          | .panic m => .panic m
          | .ok (v, np) => .ok (np, .Int16 v)
        else if 3 ≤ length ∧ length ≤ 4 then
          match decode_integer_32 buffer p length with
          | .panic m => .panic m
          | .ok (v, np) => .ok (np, .Int32 v)
        else if 5 ≤ length ∧ length ≤ 8 then
          match decode_integer_64 buffer p length with
          | .panic m => .panic m
          | .ok (v, np) => .ok (np, .Int64 v)
        else .panic "oversize signed integer"
      else if tag == 0x86 then
        if length == 1 then
          match decode_unsigned_8 buffer p length with
          | .panic m => .panic m
          | .ok (v, np) => .ok (np, .Int8u v)
        else if length == 2 then
          match decode_unsigned_16 buffer p length with
          | .panic m => .panic m
          | .ok (v, np) => .ok (np, .Int16u v)
        else if 3 ≤ length ∧ length ≤ 4 then
          match decode_unsigned_32 buffer p length with
          | .panic m => .panic m
          | .ok (v, np) => .ok (np, .Int32u v)
        else if length == 5 then
          if buffer.getD p 0 ≠ 0 then
            .panic "unsigned integer exceeds supported size"
          else
            match decode_unsigned_32 buffer (p + 1) (length - 1) with
            | .panic m => .panic m
            | .ok (v, np) => .ok (np, .Int32u v)
        else .panic "unsigned integer exceeds supported size"
      else if tag == 0x87 then
        if length == 5 then
          match decode_float_32 buffer p length with
          | .panic m => .panic m
          | .ok (bs, np) => .ok (np, .Float32 bs)
        else if length == 9 then
          match decode_float_64 buffer p length with
          | .panic m => .panic m
          | .ok (bs, np) => .ok (np, .Float64 bs)
        else .panic "unexpected float size"
      else if tag == 0x8a then
        match decode_string buffer p length with
        | .panic m => .panic m
        | .ok (s, np) => .ok (np, .VisibleString s)
      else if tag == 0x90 then
        match decode_string buffer p length with
        | .panic m => .panic m
        | .ok (s, np) => .ok (np, .MmsString s)
      else if tag == 0x84 then
        match decode_bit_string buffer p length with
        | .panic m => .panic m
        | .ok (val, padding, np) => .ok (np, .BitString padding val)
      else if tag == 0xa1 then
        match decode_iec_data fuel buffer p (p + length) with
        | .panic m => .panic m
        | .ok (vals, np) => .ok (np, .Array vals)
      else if tag == 0xa2 then
        match decode_iec_data fuel buffer p (p + length) with
        | .panic m => .panic m
        | .ok (vals, np) => .ok (np, .Structure vals)
      else if tag == 0x89 then
        match decode_octet_string length buffer p length with
        | .panic m => .panic m
        | .ok (bs, np) => .ok (np, .OctetString bs)
      else if tag == 0x91 then
        match decode_octet_string 8 buffer p length with
        | .panic m => .panic m
        | .ok (bs, np) => .ok (np, .UtcTime bs)
      else .panic "unknown data type"

/-- decode_iec_data: decode elements until the end position is reached. -/
def decode_iec_data : Nat → List Nat → Nat → Nat → PanicOr (List IECData × Nat)
  | 0, _, _, _ => .panic "recursion fuel exhausted"
  | fuel + 1, buffer, start_pos, end_pos =>
    if start_pos < end_pos then
      match decode_iec_data_element fuel buffer start_pos with
      | .panic m => .panic m
      | .ok (next_pos, d) =>
        match decode_iec_data fuel buffer next_pos end_pos with
        | .panic m => .panic m
        | .ok (ds, fin) => .ok (d :: ds, fin)
    else .ok ([], start_pos)

end

end DecodeBasics

/-! Embedding of the Quality codec of src/src/types.rs. -/

/-- The Validity enum of src/src/types.rs. -/
inductive Validity where
  | Good
  | Invalid
  | Reserved
  | Questionable
deriving DecidableEq, Repr

/-- The numeric discriminant of Validity (its value in as-u16 casts). -/
def Validity.toNat : Validity → Nat
  | .Good => 0
  | .Invalid => 1
  | .Reserved => 2
  | .Questionable => 3

/-- The Quality record of src/src/types.rs: 13 bits of an IEC 61850
sampled-value quality. -/
structure Quality where
  validity : Validity
  overflow : Bool
  out_of_range : Bool
  bad_reference : Bool
  oscillatory : Bool
  failure : Bool
  old_data : Bool
  inconsistent : Bool
  inaccurate : Bool
  source_substituted : Bool
  test : Bool
  operator_blocked : Bool
deriving DecidableEq, Repr

/-- Quality::from_u16: decode the 13 quality bits from a 16-bit container
(most significant bits first; the low three bits are padding). -/
def Quality.from_u16 (value : Nat) : Quality :=
  { validity :=
      match (value >>> 14) &&& 3 with
      | 0 => .Good
      | 1 => .Invalid
      | 2 => .Reserved
      | _ => .Questionable
    overflow := value &&& (1 <<< 13) != 0
    out_of_range := value &&& (1 <<< 12) != 0
    bad_reference := value &&& (1 <<< 11) != 0
    oscillatory := value &&& (1 <<< 10) != 0
    failure := value &&& (1 <<< 9) != 0
    old_data := value &&& (1 <<< 8) != 0
    inconsistent := value &&& (1 <<< 7) != 0
    inaccurate := value &&& (1 <<< 6) != 0
    source_substituted := value &&& (1 <<< 5) != 0
    test := value &&& (1 <<< 4) != 0
    operator_blocked := value &&& (1 <<< 3) != 0 }

/-- Quality::to_u16: encode the 13 quality bits into a 16-bit container. -/
def Quality.to_u16 (q : Quality) : Nat :=
  let v := q.validity.toNat <<< 14
  let v := if q.overflow then v ||| (1 <<< 13) else v
  let v := if q.out_of_range then v ||| (1 <<< 12) else v
  let v := if q.bad_reference then v ||| (1 <<< 11) else v
  let v := if q.oscillatory then v ||| (1 <<< 10) else v
  let v := if q.failure then v ||| (1 <<< 9) else v
  let v := if q.old_data then v ||| (1 <<< 8) else v
  let v := if q.inconsistent then v ||| (1 <<< 7) else v
  let v := if q.inaccurate then v ||| (1 <<< 6) else v
  let v := if q.source_substituted then v ||| (1 <<< 5) else v
  let v := if q.test then v ||| (1 <<< 4) else v
  let v := if q.operator_blocked then v ||| (1 <<< 3) else v
  v

namespace GooseTx

/-! Embedding of the GOOSE retransmission engine state handling in
src/src/bin/ws_goose_tx.rs. -/

/-- The retransmission configuration fields used by the engine. -/
structure GooseConfig where
  min_repetition : Nat
  max_repetition : Nat
deriving DecidableEq, Repr

/-- The per-control-block state mutated by the engine: st_num, sq_num and
current_interval of GooseState and GooseRuntime in ws_goose_tx.rs. -/
structure GooseTxState where
  st_num : Nat
  sq_num : Nat
  current_interval : Nat
  running : Bool
deriving DecidableEq, Repr

/-- The state produced by the init command handler: the runtime starts with
st_num 1 and sq_num 1, and current_interval is set to the configured
max_repetition before the sender task is spawned. -/
def goose_init_state (config : GooseConfig) : GooseTxState :=
  { st_num := 1
    sq_num := 1
    current_interval := config.max_repetition
    running := true }

/-- The sleep interval used by the sender task: it is read from the state
once, before the loop starts, and reused for every iteration. -/
def goose_sender_interval (s : GooseTxState) : Nat :=
  s.current_interval

/-- One iteration of the sender loop: emit the frame, then increment sq_num
with wrapping u32 arithmetic.  No other state field is modified. -/
def goose_sender_iteration (s : GooseTxState) : GooseTxState :=
  { s with sq_num := (s.sq_num + 1) % 2 ^ 32 }

/-- The update command handler: increment st_num (wrapping), reset sq_num
to 1, and reset current_interval to the configured min_repetition. -/
def goose_update (config : GooseConfig) (s : GooseTxState) : GooseTxState :=
  { s with
    st_num := (s.st_num + 1) % 2 ^ 32
    sq_num := 1
    current_interval := config.min_repetition }

end GooseTx

/-- The EthernetHeader record of src/src/types.rs; MAC addresses, the
optional VLAN tag and the two-byte fields are byte lists. -/
structure EthernetHeader where
  dst_addr : List Nat
  src_addr : List Nat
  tpid : Option (List Nat)
  tci : Option (List Nat)
  ether_type : List Nat
  appid : List Nat
  length : List Nat
deriving DecidableEq, Repr

/-- The Sample record of src/src/types.rs: one sampled value with its
quality. -/
structure Sample where
  value : Int
  quality : Quality
deriving DecidableEq, Repr

/-- Sample::new: build a sample from the raw value and the 16-bit quality
container. -/
def Sample.new (value : Int) (quality_bits : Nat) : Sample :=
  { value := value, quality := Quality.from_u16 quality_bits }

/-- The SavAsdu record of src/src/types.rs. -/
structure SavAsdu where
  msv_id : List Nat
  dat_set : Option (List Nat)
  smp_cnt : Nat
  conf_rev : Nat
  refr_tm : Option (List Nat)
  smp_synch : Nat
  smp_rate : Option Nat
  all_data : List Sample
  smp_mod : Option Nat
  gm_identity : Option (List Nat)
deriving DecidableEq, Repr

/-- The SavPdu record of src/src/types.rs: the security field is an
optional octet vector. -/
structure SavPdu where
  sim : Bool
  no_asdu : Nat
  security : Option (List Nat)
  sav_asdu : List SavAsdu
deriving DecidableEq, Repr

namespace EncodeSmv

/-! Embedding of src/src/encode_smv.rs. -/

/-- The leading-zero stripping loop of unsigned_integer_length and
encode_unsigned_integer in encode_smv.rs (this revision strips only 0x00
bytes, never 0xFF). -/
def strip_leading_zeros : List Nat → List Nat
  | 0 :: b :: rest => strip_leading_zeros (b :: rest)
  | l => l

/-- unsigned_integer_length: length of the minimal unsigned encoding,
counting the extra 0x00 prefix when the top bit of the first remaining
byte is set. -/
def unsigned_integer_length (value : List Nat) : Nat :=
  match strip_leading_zeros value with
  | [] => 0
  | m :: rest => if m &&& 128 ≠ 0 then (m :: rest).length + 1
                 else (m :: rest).length

/-- sample_length: encoded size of one sample without the 0x87 wrapper. -/
def sample_length (sample : Sample) : Nat :=
  let value_len :=
    if -128 ≤ sample.value ∧ sample.value ≤ 127 then 1
    else if -32768 ≤ sample.value ∧ sample.value ≤ 32767 then 2
    else if -8388608 ≤ sample.value ∧ sample.value ≤ 8388607 then 3
    else 4
  1 + 1 + value_len + 1 + 1 + 3

/-- samples_length: total encoded size of the sample list. -/
def samples_length (samples : List Sample) : Nat :=
  (samples.map sample_length).sum

/-- size_length of encode_smv.rs (the same 65535 threshold as in
encode_basics.rs). -/
def size_length (value : Nat) : Nat :=
  if value < 128 then 1
  else if value < 256 then 2
  else if value < 65535 then 3
  else 4

/-- asdu_length: encoded size of one ASDU without the 0x30 wrapper. -/
def asdu_length (asdu : SavAsdu) : Nat :=
  let l1 := 1 + 1 + asdu.msv_id.length
  let l2 := match asdu.dat_set with
    | some ds => 1 + 1 + ds.length
    | none => 0
  let l3 := 1 + 1 + unsigned_integer_length (natToBeBytes 2 asdu.smp_cnt)
  let l4 := 1 + 1 + unsigned_integer_length (natToBeBytes 4 asdu.conf_rev)
  let l5 := if asdu.refr_tm.isSome then 1 + 1 + 8 else 0
  let l6 := 1 + 1 + unsigned_integer_length (natToBeBytes 1 asdu.smp_synch)
  let l7 := match asdu.smp_rate with
    | some r => 1 + 1 + unsigned_integer_length (natToBeBytes 2 r)
    | none => 0
  let samples_data_len := samples_length asdu.all_data
  let l8 := 1 + size_length samples_data_len + samples_data_len
  let l9 := match asdu.smp_mod with
    | some m => 1 + 1 + unsigned_integer_length (natToBeBytes 2 m)
    | none => 0
  let l10 := if asdu.gm_identity.isSome then 1 + 1 + 8 else 0
  l1 + l2 + l3 + l4 + l5 + l6 + l7 + l8 + l9 + l10

/-- The ASDU sequence length computed inside pdu_length and
encode_sav_pdu: each ASDU is wrapped in a 0x30 tag and length. -/
def asdus_total_length (asdus : List SavAsdu) : Nat :=
  (asdus.map (fun asdu =>
    let asdu_data_len := asdu_length asdu
    1 + size_length asdu_data_len + asdu_data_len)).sum

/-- pdu_length: encoded size of the PDU body without the 0x60 wrapper. -/
def pdu_length (pdu : SavPdu) : Nat :=
  let l1 := 1 + 1 + unsigned_integer_length (natToBeBytes 2 pdu.no_asdu)
  let l2 := match pdu.security with
    | some sec => 1 + size_length sec.length + sec.length
    | none => 0
  let asdus_data_len := asdus_total_length pdu.sav_asdu
  let l3 := 1 + size_length asdus_data_len + asdus_data_len
  l1 + l2 + l3

/-- smv_size: total frame size, Ethernet header plus the wrapped PDU. -/
def smv_size (header : EthernetHeader) (pdu : SavPdu) : Nat :=
  let header_size :=
    if header.tpid.isSome && header.tci.isSome then 26 else 22
  let pdu_data_len := pdu_length pdu
  let pdu_len_field := size_length pdu_data_len
  header_size + (1 + pdu_len_field + pdu_data_len)

/-- encode_tag_length of encode_smv.rs (identical to the encode_basics
revision). -/
def encode_tag_length (tag : Nat) (value : Nat) (buffer : List Nat)
    (buffer_index : Nat) : Except EncodeError (List Nat × Nat) :=
  let required := 1 + size_length value
  if buffer.length < buffer_index + required then
    .error (.general "Buffer too small to write tag and length." buffer_index)
  else if value < 128 then
    .ok (writeBytes buffer buffer_index [tag, value], buffer_index + 2)
  else if value < 256 then
    .ok (writeBytes buffer buffer_index [tag, 0x81, value], buffer_index + 3)
  else if value < 65535 then
    .ok (writeBytes buffer buffer_index
      [tag, 0x82, value >>> 8 % 256, value % 256], buffer_index + 4)
  else if 1 <<< 24 ≤ value then
    .error (.general
      "Value exceeds the maximum range for three-byte encoding." buffer_index)
  else
    .ok (writeBytes buffer buffer_index
      [tag, 0x83, value >>> 16 % 256, value >>> 8 % 256, value % 256],
      buffer_index + 5)

/-- encode_ber of encode_smv.rs. -/
def encode_ber (tag : Nat) (value : List Nat) (buffer : List Nat)
    (buffer_index : Nat) : Except EncodeError (List Nat × Nat) :=
  let length_field_size := size_length value.length
  let total_size := 1 + length_field_size + value.length
  if buffer.length < buffer_index + total_size then
    .error (.general
      "Buffer does not have enough capacity to encode the BER element."
      buffer_index)
  else
    match encode_tag_length tag value.length buffer buffer_index with
    | .error e => .error e
    | .ok (buf1, pos) => .ok (writeBytes buf1 pos value, pos + value.length)

/-- minimal_twos_complement_bytes of encode_smv.rs. -/
def minimal_twos_complement_bytes : List Nat → List Nat
  | a :: b :: rest =>
    if (a == 0 && b &&& 128 == 0) || (a == 255 && b &&& 128 == 128) then
      minimal_twos_complement_bytes (b :: rest)
    else a :: b :: rest
  | l => l

/-- encode_unsigned_integer of encode_smv.rs: strips leading 0x00 bytes
only and prepends 0x00 when the top bit of the first remaining byte is
set. -/
def encode_unsigned_integer (tag : Nat) (value : List Nat)
    (buffer : List Nat) (buffer_index : Nat) :
    Except EncodeError (List Nat × Nat) :=
  let minimal := strip_leading_zeros value
  match minimal with
  | [] => encode_ber tag minimal buffer buffer_index
  | m0 :: _ =>
    if m0 &&& 128 ≠ 0 then
      encode_ber tag (0 :: minimal) buffer buffer_index
    else
      encode_ber tag minimal buffer buffer_index

/-- encode_integer of encode_smv.rs. -/
def encode_integer (tag : Nat) (value : List Nat) (buffer : List Nat)
    (buffer_index : Nat) : Except EncodeError (List Nat × Nat) :=
  encode_ber tag (minimal_twos_complement_bytes value) buffer buffer_index

/-- encode_octet_string of encode_smv.rs. -/
def encode_octet_string (tag : Nat) (value : List Nat) (buffer : List Nat)
    (buffer_index : Nat) : Except EncodeError (List Nat × Nat) :=
  encode_ber tag value buffer buffer_index

/-- encode_string of encode_smv.rs. -/
def encode_string (tag : Nat) (value : List Nat) (buffer : List Nat)
    (buffer_index : Nat) : Except EncodeError (List Nat × Nat) :=
  encode_ber tag value buffer buffer_index

/-- encode_sample: the i32 value as a BER integer with tag 0x83, then the
quality as a BIT STRING with tag 0x84, three unused bits and the two bytes
of the 16-bit quality container. -/
def encode_sample (buffer : List Nat) (pos : Nat) (sample : Sample) :
    Except EncodeError (List Nat × Nat) :=
  match encode_integer 0x83 (intToBeBytes 4 sample.value) buffer pos with
  | .error e => .error e
  | .ok (b1, p1) =>
    let quality_data := 3 :: natToBeBytes 2 sample.quality.to_u16
    encode_ber 0x84 quality_data b1 p1

/-- The sample loop of encode_samples. -/
def encode_samples_loop : List Sample → List Nat → Nat →
    Except EncodeError (List Nat × Nat)
  | [], buffer, pos => .ok (buffer, pos)
  | s :: ss, buffer, pos =>
    match encode_sample buffer pos s with
    | .error e => .error e
    | .ok (b, p) => encode_samples_loop ss b p

/-- encode_samples: the 0x87 wrapper around all samples. -/
def encode_samples (buffer : List Nat) (pos : Nat) (samples : List Sample) :
    Except EncodeError (List Nat × Nat) :=
  match encode_tag_length 0x87 (samples_length samples) buffer pos with
  | .error e => .error e
  | .ok (b, p) => encode_samples_loop samples b p

/-- encode_sav_asdu: the 0x30 wrapper and the ASDU fields in tag order,
optional fields only when present. -/
def encode_sav_asdu (buffer : List Nat) (pos : Nat) (asdu : SavAsdu) :
    Except EncodeError (List Nat × Nat) :=
  match encode_tag_length 0x30 (asdu_length asdu) buffer pos with
  | .error e => .error e
  | .ok (b1, p1) =>
  match encode_string 0x80 asdu.msv_id b1 p1 with
  | .error e => .error e
  | .ok (b2, p2) =>
  let next2 : Except EncodeError (List Nat × Nat) :=
    match asdu.dat_set with
    | some ds => encode_string 0x81 ds b2 p2
    | none => .ok (b2, p2)
  match next2 with
  | .error e => .error e
  | .ok (b3, p3) =>
  match encode_unsigned_integer 0x82 (natToBeBytes 2 asdu.smp_cnt) b3 p3 with
  | .error e => .error e
  | .ok (b4, p4) =>
  match encode_unsigned_integer 0x83 (natToBeBytes 4 asdu.conf_rev) b4 p4 with
  | .error e => .error e
  | .ok (b5, p5) =>
  let next5 : Except EncodeError (List Nat × Nat) :=
    match asdu.refr_tm with
    | some rt => encode_octet_string 0x84 rt b5 p5
    | none => .ok (b5, p5)
  match next5 with
  | .error e => .error e
  | .ok (b6, p6) =>
  match encode_unsigned_integer 0x85 (natToBeBytes 1 asdu.smp_synch) b6 p6 with
  | .error e => .error e
  | .ok (b7, p7) =>
  let next7 : Except EncodeError (List Nat × Nat) :=
    match asdu.smp_rate with
    | some r => encode_unsigned_integer 0x86 (natToBeBytes 2 r) b7 p7
    | none => .ok (b7, p7)
  match next7 with
  | .error e => .error e
  | .ok (b8, p8) =>
  match encode_samples b8 p8 asdu.all_data with
  | .error e => .error e
  | .ok (b9, p9) =>
  let next9 : Except EncodeError (List Nat × Nat) :=
    match asdu.smp_mod with
    | some m => encode_unsigned_integer 0x88 (natToBeBytes 2 m) b9 p9
    | none => .ok (b9, p9)
  match next9 with
  | .error e => .error e
  | .ok (b10, p10) =>
  match asdu.gm_identity with
  | some gm => encode_octet_string 0x89 gm b10 p10
  | none => .ok (b10, p10)

/-- The ASDU loop of encode_sav_pdu. -/
def encode_asdus_loop : List SavAsdu → List Nat → Nat →
    Except EncodeError (List Nat × Nat)
  | [], buffer, pos => .ok (buffer, pos)
  | a :: as_rest, buffer, pos =>
    match encode_sav_asdu buffer pos a with
    | .error e => .error e
    | .ok (b, p) => encode_asdus_loop as_rest b p

/-- encode_sav_pdu: the 0x60 wrapper, noASDU, the optional security octet
string, the 0xA2 ASDU sequence wrapper and all ASDUs. -/
def encode_sav_pdu (buffer : List Nat) (pos : Nat) (pdu : SavPdu) :
    Except EncodeError (List Nat × Nat) :=
  let data_len := pdu_length pdu
  let asdus_len := asdus_total_length pdu.sav_asdu
  match encode_tag_length 0x60 data_len buffer pos with
  | .error e => .error e
  | .ok (b1, p1) =>
  match encode_unsigned_integer 0x80 (natToBeBytes 2 pdu.no_asdu) b1 p1 with
  | .error e => .error e
  | .ok (b2, p2) =>
  let next2 : Except EncodeError (List Nat × Nat) :=
    match pdu.security with
    | some sec => encode_octet_string 0x81 sec b2 p2
    | none => .ok (b2, p2)
  match next2 with
  | .error e => .error e
  | .ok (b3, p3) =>
  match encode_tag_length 0xA2 asdus_len b3 p3 with
  | .error e => .error e
  | .ok (b4, p4) => encode_asdus_loop pdu.sav_asdu b4 p4

/-- encode_ethernet_header of encode_smv.rs: MAC addresses, the optional
VLAN tag, EtherType, APPID, the big-endian length and four zeroed reserved
bytes, written at fixed consecutive offsets. -/
def encode_ethernet_header (buffer : List Nat) (header : EthernetHeader)
    (length : Nat) : List Nat × Nat :=
  let b1 := writeBytes buffer 0 header.dst_addr
  let b2 := writeBytes b1 6 header.src_addr
  match header.tpid, header.tci with
  | some tpid, some tci =>
    let b3 := writeBytes b2 12 tpid
    let b4 := writeBytes b3 14 tci
    let b5 := writeBytes b4 16 header.ether_type
    let b6 := writeBytes b5 18 header.appid
    let b7 := writeBytes b6 20 (natToBeBytes 2 (length % 65536))
    let b8 := writeBytes b7 22 [0, 0]
    let b9 := writeBytes b8 24 [0, 0]
    (b9, 26)
  | _, _ =>
    let b5 := writeBytes b2 12 header.ether_type
    let b6 := writeBytes b5 14 header.appid
    let b7 := writeBytes b6 16 (natToBeBytes 2 (length % 65536))
    let b8 := writeBytes b7 18 [0, 0]
    let b9 := writeBytes b8 20 [0, 0]
    (b9, 22)

/-- encode_smv_into: check the buffer size, write the Ethernet header, set
the simulation bit at offset 18 (no VLAN) or 22 (with VLAN) when sim is
true, then write the PDU. -/
def encode_smv_into (header : EthernetHeader) (pdu : SavPdu)
    (buffer : List Nat) : Except EncodeError (List Nat × Nat) :=
  let required_size := smv_size header pdu
  if buffer.length < required_size then
    .error (.bufferTooSmall required_size buffer.length)
  else
    let pdu_data_len := pdu_length pdu
    let pdu_len_field := size_length pdu_data_len
    let pdu_total_len := 1 + pdu_len_field + pdu_data_len
    let length := (pdu_total_len % 65536 + 8) % 65536
    let (b1, pos) := encode_ethernet_header buffer header length
    let reserved1_offset :=
      if header.tpid.isSome && header.tci.isSome then 22 else 18
    let b2 := if pdu.sim then b1.set reserved1_offset 0x80 else b1
    encode_sav_pdu b2 pos pdu

/-- encode_smv: allocate a zeroed buffer of the exact computed size and
encode into it. -/
def encode_smv (header : EthernetHeader) (pdu : SavPdu) :
    Except EncodeError (List Nat) :=
  let size := smv_size header pdu
  match encode_smv_into header pdu (List.replicate size 0) with
  | .error e => .error e
  | .ok (b, _) => .ok b

end EncodeSmv

namespace DecodeSmv

/-! Embedding of src/src/decode_smv.rs, the Result-returning SMV decode
revision. -/

/-- decode_octet_string of decode_smv.rs with an output slice of the given
width. -/
def decode_octet_string (width : Nat) (buffer : List Nat)
    (buffer_index length : Nat) : Except DecodeError (List Nat × Nat) :=
  if buffer.length < buffer_index + length then
    .error ⟨"Attempt to read bytes exceeds buffer length", buffer_index⟩
  else if width < length then
    .error ⟨"copy_from_slice range out of bounds", buffer_index⟩
  else
    .ok ((buffer.drop buffer_index).take length ++
      List.replicate (width - length) 0, buffer_index + length)

/-- decompress_integer of decode_smv.rs. -/
def decompress_integer (width : Nat) (buffer : List Nat)
    (buffer_index length : Nat) : Except DecodeError (List Nat) :=
  if buffer.length < buffer_index + length then
    .error ⟨"Attempt to read bytes exceeds buffer length", buffer_index⟩
  else if width < length then
    .error ⟨"Mismatch value length vs buffer length", buffer_index⟩
  else
    let fill := if buffer.getD buffer_index 0 &&& 128 == 128 then 255 else 0
    .ok (List.replicate (width - length) fill ++
      (buffer.drop buffer_index).take length)

/-- decode_unsigned_8 of decode_smv.rs. -/
def decode_unsigned_8 (buffer : List Nat) (buffer_index length : Nat) :
    Except DecodeError (Nat × Nat) :=
  match decompress_integer 1 buffer buffer_index length with
  | .error e => .error e
  | .ok bs => .ok (beBytesToNat bs, buffer_index + length)

/-- decode_unsigned_16 of decode_smv.rs. -/
def decode_unsigned_16 (buffer : List Nat) (buffer_index length : Nat) :
    Except DecodeError (Nat × Nat) :=
  match decompress_integer 2 buffer buffer_index length with
  | .error e => .error e
  | .ok bs => .ok (beBytesToNat bs, buffer_index + length)

/-- decode_unsigned_32 of decode_smv.rs. -/
def decode_unsigned_32 (buffer : List Nat) (buffer_index length : Nat) :
    Except DecodeError (Nat × Nat) :=
  match decompress_integer 4 buffer buffer_index length with
  | .error e => .error e
  | .ok bs => .ok (beBytesToNat bs, buffer_index + length)

/-- decode_string of decode_smv.rs (lossy UTF-8 modelled as raw bytes). -/
def decode_string (buffer : List Nat) (buffer_index length : Nat) :
    Except DecodeError (List Nat × Nat) :=
  if buffer.length < buffer_index + length then
    .error ⟨"Attempt to read bytes exceeds buffer length", buffer_index⟩
  else
    .ok ((buffer.drop buffer_index).take length, buffer_index + length)

/-- decode_tag_length of decode_smv.rs: the Result-returning revision. -/
def decode_tag_length (buffer : List Nat) (buffer_index : Nat) :
    Except DecodeError (Nat × Nat × Nat) :=
  if buffer.length ≤ buffer_index then
    .error ⟨"Out of bounds for buffer length", buffer_index⟩
  else
    let tag := buffer.getD buffer_index 0
    let pos := buffer_index + 1
    if buffer.length ≤ pos then
      .error ⟨"Decode tag length: missing length byte", buffer_index⟩
    else
      let first_len_byte := buffer.getD pos 0
      let pos := pos + 1
      if first_len_byte &&& 128 == 0 then
        .ok (tag, first_len_byte, pos)
      else
        let num_len_bytes := first_len_byte &&& 127
        if num_len_bytes == 0 || 3 < num_len_bytes then
          .error ⟨"Decode tag length: invalid number of length bytes",
            buffer_index⟩
        else if buffer.length < pos + num_len_bytes then
          .error ⟨"Decode tag length: not enough bytes for length",
            buffer_index⟩
        else
          let len := ((buffer.drop pos).take num_len_bytes).foldl
            (fun l b => l <<< 8 ||| b) 0
          .ok (tag, len, pos + num_len_bytes)

/-- decode_savs: parse (0x83 integer, 0x84 bit string) pairs until the
content block is exhausted.  The fuel bounds the loop; any fuel of at
least the buffer length is enough since every iteration consumes at least
four bytes. -/
def decode_savs : Nat → List Nat → Nat → Nat →
    Except DecodeError (Nat × List Sample)
  | 0, _, pos, _ => .error ⟨"loop fuel exhausted", pos⟩
  | fuel + 1, buffer, pos, end_pos =>
    if end_pos ≤ pos then .ok (pos, [])
    else
      match decode_tag_length buffer pos with
      | .error e => .error e
      | .ok (tag, length, p1) =>
        if tag ≠ 0x83 then
          .error ⟨"Expected integer tag 0x83", p1⟩
        else
          match decompress_integer 4 buffer p1 length with
          | .error e => .error e
          | .ok value_bytes =>
            let int_val := beBytesToInt value_bytes
            let p2 := p1 + length
            match decode_tag_length buffer p2 with
            | .error e => .error e
            | .ok (tag2, length2, p3) =>
              if tag2 ≠ 0x84 then
                .error ⟨"Expected bitstring tag 0x84", p3⟩
              else if buffer.length ≤ p3 then
                .error ⟨"Buffer too short for bitstring unused bits", p3⟩
              else
                let p4 := p3 + 1
                let quality_length := length2 - 1
                if buffer.length < p4 + quality_length then
                  .error ⟨"Buffer too short for quality bytes", p4⟩
                else
                  let quality_bits := ((buffer.drop p4).take
                    quality_length).foldl (fun q b => q <<< 8 ||| b) 0
                  let p5 := p4 + quality_length
                  match decode_savs fuel buffer p5 end_pos with
                  | .error e => .error e
                  | .ok (fin, samples) =>
                    .ok (fin, Sample.new int_val quality_bits :: samples)

/-- decode_smv_asdu: parse one ASDU body.  Optional fields are detected by
peeking the next tag byte; the peeks for dat_set, refr_tm and smp_rate
read the buffer without a bounds check in the source (in-bounds for the
inputs considered here), and the refr_tm content is copied with a fixed
8-byte range whatever the decoded length says. -/
def decode_smv_asdu (buffer : List Nat) (start_pos : Nat) :
    Except DecodeError (Nat × SavAsdu) :=
  match decode_tag_length buffer start_pos with
  | .error e => .error e
  | .ok (_, len1, p1) =>
  match decode_string buffer p1 len1 with
  | .error e => .error e
  | .ok (msv_id, p2) =>
  let step_dat_set : Except DecodeError (Option (List Nat) × Nat) :=
    if buffer.getD p2 0 == 0x81 then
      match decode_tag_length buffer p2 with
      | .error e => .error e
      | .ok (_, len2, p3) =>
        match decode_string buffer p3 len2 with
        | .error e => .error e
        | .ok (ds, p4) => .ok (some ds, p4)
    else .ok (none, p2)
  match step_dat_set with
  | .error e => .error e
  | .ok (dat_set, p4) =>
  match decode_tag_length buffer p4 with
  | .error e => .error e
  | .ok (_, len3, p5) =>
  match decode_unsigned_16 buffer p5 len3 with
  | .error e => .error e
  | .ok (smp_cnt, p6) =>
  match decode_tag_length buffer p6 with
  | .error e => .error e
  | .ok (_, len4, p7) =>
  match decode_unsigned_32 buffer p7 len4 with
  | .error e => .error e
  | .ok (conf_rev, p8) =>
  let step_refr_tm : Except DecodeError (Option (List Nat) × Nat) :=
    if buffer.getD p8 0 == 0x84 then
      match decode_tag_length buffer p8 with
      | .error e => .error e
      | .ok (_, _, p9) =>
        .ok (some ((buffer.drop p9).take 8), p9 + 8)
    else .ok (none, p8)
  match step_refr_tm with
  | .error e => .error e
  | .ok (refr_tm, p10) =>
  match decode_tag_length buffer p10 with
  | .error e => .error e
  | .ok (_, len5, p11) =>
  match decode_unsigned_8 buffer p11 len5 with
  | .error e => .error e
  | .ok (smp_synch, p12) =>
  let step_smp_rate : Except DecodeError (Option Nat × Nat) :=
    if buffer.getD p12 0 == 0x86 then
      match decode_tag_length buffer p12 with
      | .error e => .error e
      | .ok (_, len6, p13) =>
        match decode_unsigned_16 buffer p13 len6 with
        | .error e => .error e
        | .ok (r, p14) => .ok (some r, p14)
    else .ok (none, p12)
  match step_smp_rate with
  | .error e => .error e
  | .ok (smp_rate, p14) =>
  match decode_tag_length buffer p14 with
  | .error e => .error e
  | .ok (_, len7, p15) =>
  match decode_savs (buffer.length + 1) buffer p15 (p15 + len7) with
  | .error e => .error e
  | .ok (p16, all_data) =>
  let step_smp_mod : Except DecodeError (Option Nat × Nat) :=
    if p16 < buffer.length && buffer.getD p16 0 == 0x88 then
      match decode_tag_length buffer p16 with
      | .error e => .error e
      | .ok (_, len8, p17) =>
        match decode_unsigned_16 buffer p17 len8 with
        | .error e => .error e
        | .ok (m, p18) => .ok (some m, p18)
    else .ok (none, p16)
  match step_smp_mod with
  | .error e => .error e
  | .ok (smp_mod, p18) =>
  let step_gm : Except DecodeError (Option (List Nat) × Nat) :=
    if p18 < buffer.length && buffer.getD p18 0 == 0x89 then
      match decode_tag_length buffer p18 with
      | .error e => .error e
      | .ok (_, len9, p19) =>
        match decode_octet_string 8 buffer p19 len9 with
        | .error e => .error e
        | .ok (gm, p20) => .ok (some gm, p20)
    else .ok (none, p18)
  match step_gm with
  | .error e => .error e
  | .ok (gm_identity, p20) =>
    .ok (p20,
      { msv_id := msv_id
        dat_set := dat_set
        smp_cnt := smp_cnt
        conf_rev := conf_rev
        refr_tm := refr_tm
        smp_synch := smp_synch
        smp_rate := smp_rate
        all_data := all_data
        smp_mod := smp_mod
        gm_identity := gm_identity })

/-- decode_smv_asdus: skip each ASDU wrapper tag and length, then decode
the ASDU body, no_asdu times. -/
def decode_smv_asdus (buffer : List Nat) : Nat → Nat →
    Except DecodeError (Nat × List SavAsdu)
  | pos, 0 => .ok (pos, [])
  | pos, n + 1 =>
    match decode_tag_length buffer pos with
    | .error e => .error e
    | .ok (_, _, p1) =>
      match decode_smv_asdu buffer p1 with
      | .error e => .error e
      | .ok (p2, asdu) =>
        match decode_smv_asdus buffer p2 n with
        | .error e => .error e
        | .ok (fin, asdus) => .ok (fin, asdu :: asdus)

/-- decode_sim_bit: the simulation bit is the most significant bit of the
first reserved byte, after the MAC addresses, the optional VLAN tag,
EtherType, APPID and length fields. -/
def decode_sim_bit (buffer : List Nat) : Option Bool :=
  let offset := 12
  let offset :=
    if offset + 2 ≤ buffer.length &&
        (buffer.drop offset).take 2 == [0x81, 0x00] then
      offset + 4
    else offset
  let offset := offset + 2 + 2 + 2
  if buffer.length ≤ offset then none
  else some (buffer.getD offset 0 &&& 128 ≠ 0)

/-- The SavPdu record as built by decode_smv of decode_smv.rs: in this
revision the security field is only a presence flag (a Bool), not the
security bytes. -/
structure SavPduDec where
  sim : Bool
  no_asdu : Nat
  security : Bool
  sav_asdu : List SavAsdu
deriving DecidableEq, Repr

/-- decode_smv: the Rust function fills a local SavPdu record and returns
only the final buffer position; the record is returned here as well so
that the decoded content is observable.  When the security tag 0x81 is
present, the decoder records only a presence flag and unconditionally
skips 12 bytes (tag, length byte and ten content bytes), whatever the
actual security length is. -/
def decode_smv (buffer : List Nat) (pos : Nat) :
    Except DecodeError (SavPduDec × Nat) :=
  let sim := (decode_sim_bit buffer).getD false
  match decode_tag_length buffer pos with
  | .error e => .error e
  | .ok (_, _, p1) =>
  match decode_tag_length buffer p1 with
  | .error e => .error e
  | .ok (_, len1, p2) =>
  match decode_unsigned_16 buffer p2 len1 with
  | .error e => .error e
  | .ok (no_asdu, p3) =>
  let (security, p4) :=
    if buffer.getD p3 0 == 0x81 then (true, p3 + 12) else (false, p3)
  match decode_tag_length buffer p4 with
  | .error e => .error e
  | .ok (_, _, p5) =>
  match decode_smv_asdus buffer p5 no_asdu with
  | .error e => .error e
  | .ok (fin, asdus) =>
    .ok (
      { sim := sim
        no_asdu := no_asdu
        security := security
        sav_asdu := asdus }, fin)

/-- is_smv_frame: EtherType check at offset 12 or 16 depending on the
VLAN probe. -/
def is_smv_frame (buffer : List Nat) : Bool :=
  if buffer.length < 14 then false
  else
    let ether_type_offset :=
      if (buffer.drop 12).take 2 == [0x81, 0x00] then 16 else 12
    if buffer.length < ether_type_offset + 2 then false
    else (buffer.drop ether_type_offset).take 2 == [0x88, 0xba]

end DecodeSmv

namespace GooseSpec

/-! The GOOSE PDU serialisation of the source (encode_goose and
decode_goose_pdu in src/src/encode_goose.rs and src/src/decode_goose.rs)
is delegated to the external rasn BER library, whose code is not part of
this repository.  The BER wire grammar of the GOOSE APDU is therefore
modelled from the specification (the tag and length rules, the minimal
integer compression, the value dispatch table and the 11 context-tagged
PDU fields followed by allData). -/

/-- Modelled from the spec: the Value sum type carried by a GOOSE allData
entry (the rasn value model is external to the repository).  Floats carry
their IEEE 754 byte lists; strings carry their UTF-8 byte lists. -/
inductive Value where
  | Boolean (b : Bool)
  | Int (v : Int)
  | UInt (v : Nat)
  | Float32 (bytes : List Nat)
  | Float64 (bytes : List Nat)
  | VisibleString (s : List Nat)
  | MmsString (s : List Nat)
  | BitString (padding : Nat) (bytes : List Nat)
  | OctetString (bytes : List Nat)
  | Timestamp (bytes : List Nat)
  | Array (vs : List Value)
  | Structure (vs : List Value)

/-- Modelled from the spec: the GoosePdu record with its 11 scalar fields
and the allData value list. -/
structure GoosePdu where
  goCbRef : List Nat
  timeAllowedToLive : Nat
  datSet : List Nat
  goID : List Nat
  t : List Nat
  stNum : Nat
  sqNum : Nat
  simulation : Bool
  confRev : Nat
  ndsCom : Bool
  numDatSetEntries : Nat
  allData : List Value

/-- Modelled from the spec: BER definite length; one byte below 128, then
the 0x81, 0x82 and 0x83 long forms, the 0x82 form covering every length
below 65536. -/
def encLen (n : Nat) : List Nat :=
  if n < 128 then [n]
  else if n < 256 then [0x81, n]
  else if n < 65536 then [0x82, n / 256, n % 256]
  else [0x83, n / 65536, n / 256 % 256, n % 256]

/-- Modelled from the spec: a tag, the BER length of the content, and the
content bytes. -/
def encTLV (tag : Nat) (content : List Nat) : List Nat :=
  tag :: (encLen content.length ++ content)

/-- Modelled from the spec: the width in bytes of the minimal two's
complement form of a signed integer (the result of stripping redundant
leading sign bytes from the 8-byte form). -/
def intWidth (v : Int) : Nat :=
  if -128 ≤ v ∧ v < 128 then 1
  else if -32768 ≤ v ∧ v < 32768 then 2
  else if -8388608 ≤ v ∧ v < 8388608 then 3
  else if -2147483648 ≤ v ∧ v < 2147483648 then 4
  else if -549755813888 ≤ v ∧ v < 549755813888 then 5
  else if -140737488355328 ≤ v ∧ v < 140737488355328 then 6
  else if -36028797018963968 ≤ v ∧ v < 36028797018963968 then 7
  else 8

/-- Modelled from the spec: minimal two's complement content bytes of a
signed integer. -/
def encIntContent (v : Int) : List Nat :=
  intToBeBytes (intWidth v) v

/-- Modelled from the spec: the width in bytes of the minimal unsigned
form (leading 0x00 bytes stripped). -/
def uintWidth (v : Nat) : Nat :=
  if v < 256 then 1
  else if v < 65536 then 2
  else if v < 16777216 then 3
  else 4

/-- Modelled from the spec: minimal unsigned content bytes; a 0x00 byte is
prepended when the top bit of the first byte is set so BER reads the value
as positive. -/
def encUIntContent (v : Nat) : List Nat :=
  let base := natToBeBytes (uintWidth v) v
  match base with
  | [] => []
  | b :: _ => if 128 ≤ b then 0 :: base else base

/-- Modelled from the spec: boolean content, 0xFF for true and 0x00 for
false. -/
def encBool (b : Bool) : List Nat :=
  [if b then 255 else 0]

mutual

/-- Modelled from the spec: encoding of one Value with the tag dispatch
table of the value codec (0x83 boolean, 0x85 signed, 0x86 unsigned, 0x87
float with descriptor byte 0x08, 0x89 octet string, 0x8A visible string,
0x90 MMS string, 0x91 UtcTime, 0x84 bit string with byte and bit
reversal, 0xA1 array, 0xA2 structure). -/
def encValue : Value → List Nat
  | .Boolean b => encTLV 0x83 (encBool b)
  | .Int v => encTLV 0x85 (encIntContent v)
  | .UInt v => encTLV 0x86 (encUIntContent v)
  | .Float32 bs => encTLV 0x87 (8 :: bs)
  | .Float64 bs => encTLV 0x87 (8 :: bs)
  | .VisibleString s => encTLV 0x8A s
  | .MmsString s => encTLV 0x90 s
  | .BitString p bs => encTLV 0x84 (p :: (bs.reverse.map reverseBits8))
  | .OctetString bs => encTLV 0x89 bs
  | .Timestamp bs => encTLV 0x91 bs
  | .Array vs => encTLV 0xA1 (encValues vs)
  | .Structure vs => encTLV 0xA2 (encValues vs)

/-- Modelled from the spec: concatenated encodings of a value list. -/
def encValues : List Value → List Nat
  | [] => []
  | v :: vs => encValue v ++ encValues vs

end

/-- Modelled from the spec: the GOOSE PDU body, 11 context-tagged fields
in fixed order followed by the 0xAB allData block. -/
def encGooseBody (g : GoosePdu) : List Nat :=
  encTLV 0x80 g.goCbRef ++
  encTLV 0x81 (encUIntContent g.timeAllowedToLive) ++
  encTLV 0x82 g.datSet ++
  encTLV 0x83 g.goID ++
  encTLV 0x84 g.t ++
  encTLV 0x85 (encUIntContent g.stNum) ++
  encTLV 0x86 (encUIntContent g.sqNum) ++
  encTLV 0x87 (encBool g.simulation) ++
  encTLV 0x88 (encUIntContent g.confRev) ++
  encTLV 0x89 (encBool g.ndsCom) ++
  encTLV 0x8A (encUIntContent g.numDatSetEntries) ++
  encTLV 0xAB (encValues g.allData)

/-- Modelled from the spec: the GOOSE APDU, tag 0x61 around the body. -/
def encGoosePdu (g : GoosePdu) : List Nat :=
  encTLV 0x61 (encGooseBody g)

/-- Modelled from the spec: parse a tag and a BER definite length from the
front of the buffer, returning the tag, the length and the remaining
bytes. -/
def parseTL (buf : List Nat) : Option (Nat × Nat × List Nat) :=
  match buf with
  | [] => none
  | tag :: rest =>
    match rest with
    | [] => none
    | l0 :: rest1 =>
      if l0 < 128 then some (tag, l0, rest1)
      else if l0 = 0x81 then
        match rest1 with
        | b1 :: r => some (tag, b1, r)
        | _ => none
      else if l0 = 0x82 then
        match rest1 with
        | b1 :: b2 :: r => some (tag, b1 * 256 + b2, r)
        | _ => none
      else if l0 = 0x83 then
        match rest1 with
        | b1 :: b2 :: b3 :: r => some (tag, (b1 * 256 + b2) * 256 + b3, r)
        | _ => none
      else none

/-- Modelled from the spec: parse one field with the expected tag,
returning its content bytes and the remaining bytes. -/
def parseField (tag : Nat) (buf : List Nat) : Option (List Nat × List Nat) :=
  match parseTL buf with
  | none => none
  | some (t, len, rest) =>
    if t = tag ∧ len ≤ rest.length then some (rest.take len, rest.drop len)
    else none

mutual

/-- Modelled from the spec: parse one Value by tag dispatch.  The fuel
only bounds recursion into nested arrays and structures; any fuel above
the buffer length is enough since every element consumes at least two
bytes. -/
def parseValue : Nat → List Nat → Option (Value × List Nat)
  | 0, _ => none
  | fuel + 1, buf =>
    match parseTL buf with
    | none => none
    | some (tag, len, rest) =>
      if len ≤ rest.length then
        let content := rest.take len
        let rest1 := rest.drop len
        if tag = 0x83 then
          if len = 1 then some (.Boolean (content.getD 0 0 ≠ 0), rest1)
          else none
        else if tag = 0x85 then
          if 1 ≤ len ∧ len ≤ 8 then some (.Int (beBytesToInt content), rest1)
          else none
        else if tag = 0x86 then
          if (1 ≤ len ∧ len ≤ 4) ∨ (len = 5 ∧ content.getD 0 0 = 0) then
            some (.UInt (beBytesToNat content), rest1)
          else none
        else if tag = 0x87 then
          if len = 5 then some (.Float32 (content.drop 1), rest1)
          else if len = 9 then some (.Float64 (content.drop 1), rest1)
          else none
        else if tag = 0x89 then some (.OctetString content, rest1)
        else if tag = 0x8A then some (.VisibleString content, rest1)
        else if tag = 0x90 then some (.MmsString content, rest1)
        else if tag = 0x91 then
          if len = 8 then some (.Timestamp content, rest1) else none
        else if tag = 0x84 then
          if 1 ≤ len then
            some (.BitString (content.getD 0 0)
              (((content.drop 1).map reverseBits8).reverse), rest1)
          else none
        else if tag = 0xA1 then
          match parseValues fuel content with
          | some vs => some (.Array vs, rest1)
          | none => none
        else if tag = 0xA2 then
          match parseValues fuel content with
          | some vs => some (.Structure vs, rest1)
          | none => none
        else none
      else none

/-- Modelled from the spec: parse values until the content block is
exhausted, which must align exactly. -/
def parseValues : Nat → List Nat → Option (List Value)
  | 0, _ => none
  | fuel + 1, buf =>
    if buf.isEmpty then some []
    else
      match parseValue fuel buf with
      | none => none
      | some (v, rest) =>
        match parseValues fuel rest with
        | none => none
        | some vs => some (v :: vs)

end

/-- Modelled from the spec: parse the GOOSE APDU, the 11 fixed fields in
tag order followed by the 0xAB allData block; the timestamp content must
be 8 bytes and booleans one byte; trailing bytes inside the outer length
after allData are tolerated, and bytes after the outer length are
returned as the suffix. -/
def parseGoosePdu (buf : List Nat) : Option (GoosePdu × List Nat) :=
  match parseField 0x61 buf with
  | none => none
  | some (body, suffix) =>
  match parseField 0x80 body with
  | none => none
  | some (goCbRef, b1) =>
  match parseField 0x81 b1 with
  | none => none
  | some (tal, b2) =>
  match parseField 0x82 b2 with
  | none => none
  | some (datSet, b3) =>
  match parseField 0x83 b3 with
  | none => none
  | some (goID, b4) =>
  match parseField 0x84 b4 with
  | none => none
  | some (t, b5) =>
  if t.length = 8 then
    match parseField 0x85 b5 with
    | none => none
    | some (stNum, b6) =>
    match parseField 0x86 b6 with
    | none => none
    | some (sqNum, b7) =>
    match parseField 0x87 b7 with
    | none => none
    | some (simB, b8) =>
    if simB.length = 1 then
      match parseField 0x88 b8 with
      | none => none
      | some (confRev, b9) =>
      match parseField 0x89 b9 with
      | none => none
      | some (ndsB, b10) =>
      if ndsB.length = 1 then
        match parseField 0x8A b10 with
        | none => none
        | some (numEntries, b11) =>
        match parseField 0xAB b11 with
        | none => none
        | some (allBytes, _) =>
        match parseValues (allBytes.length + 1) allBytes with
        | none => none
        | some vs =>
          some (
            { goCbRef := goCbRef
              timeAllowedToLive := beBytesToNat tal
              datSet := datSet
              goID := goID
              t := t
              stNum := beBytesToNat stNum
              sqNum := beBytesToNat sqNum
              simulation := simB.getD 0 0 ≠ 0
              confRev := beBytesToNat confRev
              ndsCom := ndsB.getD 0 0 ≠ 0
              numDatSetEntries := beBytesToNat numEntries
              allData := vs }, suffix)
      else none
    else none
  else none

mutual

/-- Modelled from the spec: validity of one Value (field widths within the
wire ranges of the value table; bit string bytes are bytes and padding is
below 8; nested blocks fit a BER length). -/
def validValue : Value → Bool
  | .Boolean _ => true
  | .Int v => decide (-(2 ^ 63) ≤ v) && decide (v < 2 ^ 63)
  | .UInt v => decide (v < 2 ^ 32)
  | .Float32 bs => decide (bs.length = 4)
  | .Float64 bs => decide (bs.length = 8)
  | .VisibleString s => decide (s.length < 2 ^ 24)
  | .MmsString s => decide (s.length < 2 ^ 24)
  | .BitString p bs =>
    decide (p < 8) && decide (bs.length + 1 < 2 ^ 24) &&
    bs.all (fun b => decide (b < 256))
  | .OctetString bs => decide (bs.length < 2 ^ 24)
  | .Timestamp bs => decide (bs.length = 8)
  | .Array vs => validValues vs && decide ((encValues vs).length < 2 ^ 24)
  | .Structure vs => validValues vs && decide ((encValues vs).length < 2 ^ 24)

/-- Modelled from the spec: validity of a value list. -/
def validValues : List Value → Bool
  | [] => true
  | v :: vs => validValue v && validValues vs

end

/-- Modelled from the spec: validity of a GoosePdu (reference strings fit
a BER length, the timestamp is 8 bytes, the numeric fields are 32-bit,
allData is valid and the body fits a BER length). -/
def validPdu (g : GoosePdu) : Bool :=
  decide (g.goCbRef.length < 2 ^ 24) &&
  decide (g.datSet.length < 2 ^ 24) &&
  decide (g.goID.length < 2 ^ 24) &&
  decide (g.t.length = 8) &&
  decide (g.timeAllowedToLive < 2 ^ 32) &&
  decide (g.stNum < 2 ^ 32) &&
  decide (g.sqNum < 2 ^ 32) &&
  decide (g.confRev < 2 ^ 32) &&
  decide (g.numDatSetEntries < 2 ^ 32) &&
  validValues g.allData &&
  decide ((encGooseBody g).length < 2 ^ 24)

end GooseSpec

namespace EncodeGoose

/-! Embedding of the Ethernet framing of src/src/encode_goose.rs (this
part of the GOOSE encoder is repository code; only the BER body above is
modelled from the spec). -/

/-- encode_ethernet_header of encode_goose.rs: for well-formed field
widths the consecutive slice writes produce exactly this concatenation
(MAC addresses, the optional VLAN tag, EtherType, APPID, the big-endian
length and four zeroed reserved bytes). -/
def encode_ethernet_header (header : EthernetHeader) (length : Nat) :
    List Nat :=
  header.dst_addr ++ header.src_addr ++
  (match header.tpid, header.tci with
   | some tpid, some tci => tpid ++ tci
   | _, _ => []) ++
  header.ether_type ++ header.appid ++
  natToBeBytes 2 (length % 65536) ++ [0, 0] ++ [0, 0]

/-- encode_goose of encode_goose.rs: the PDU bytes (via the spec-modelled
BER codec standing in for rasn), the Ethernet length field counting the
PDU plus 8 prefix bytes, and the concatenated frame. -/
def encode_goose (header : EthernetHeader) (pdu : GooseSpec.GoosePdu) :
    List Nat :=
  let pdu_bytes := GooseSpec.encGoosePdu pdu
  let length := (pdu_bytes.length % 65536 + 8) % 65536
  encode_ethernet_header header length ++ pdu_bytes

end EncodeGoose

namespace DecodeGoose

/-! Embedding of the receive framing of src/src/decode_goose.rs. -/

/-- decode_ethernet_header of decode_goose.rs: MAC addresses, the VLAN
probe at offset 12, then EtherType, APPID and length; returns the header
and the position after the four reserved bytes (22 without VLAN, 26 with
VLAN).  The source panics when the buffer is shorter than the header; the
inputs considered here are long enough. -/
def decode_ethernet_header (buffer : List Nat) : EthernetHeader × Nat :=
  let dst := (buffer.drop 0).take 6
  let src := (buffer.drop 6).take 6
  if (buffer.drop 12).take 2 = [0x81, 0x00] then
    ({ dst_addr := dst
       src_addr := src
       tpid := some ((buffer.drop 12).take 2)
       tci := some ((buffer.drop 14).take 2)
       ether_type := (buffer.drop 16).take 2
       appid := (buffer.drop 18).take 2
       length := (buffer.drop 20).take 2 }, 26)
  else
    ({ dst_addr := dst
       src_addr := src
       tpid := none
       tci := none
       ether_type := (buffer.drop 12).take 2
       appid := (buffer.drop 14).take 2
       length := (buffer.drop 16).take 2 }, 22)

/-- Modelled from the spec: decode_goose_pdu of decode_goose.rs delegates
the BER decoding of the buffer tail to the external rasn library, which
the spec-modelled parser stands in for. -/
def decode_goose_pdu (buffer : List Nat) (pos : Nat) :
    Option (GooseSpec.GoosePdu × List Nat) :=
  GooseSpec.parseGoosePdu (buffer.drop pos)

/-- is_goose_frame of decode_goose.rs. -/
def is_goose_frame (buffer : List Nat) : Bool :=
  if buffer.length < 14 then false
  else
    let ether_type_offset :=
      if (buffer.drop 12).take 2 == [0x81, 0x00] then 16 else 12
    if buffer.length < ether_type_offset + 2 then false
    else
      (buffer.drop ether_type_offset).take 2 == [0x88, 0xb8] ||
      (buffer.drop ether_type_offset).take 2 == [0x88, 0xb9]

end DecodeGoose

/-- The 158-byte reference GOOSE frame from the repository tests
(tests/decode_goose.rs and the encode_goose test expectation). -/
def referenceGooseFrame : List Nat :=
  [1, 12, 205, 1, 0, 1, 0, 26, 182, 3, 47, 28, 129, 0, 0, 1, 136, 184,
   16, 1, 0, 140, 0, 0, 0, 0, 97, 129, 129, 128, 17, 73, 69, 68, 49, 47,
   76, 76, 78, 48, 36, 71, 79, 36, 103, 99, 98, 49, 129, 2, 7, 208, 130,
   18, 73, 69, 68, 49, 47, 76, 76, 78, 48, 36, 68, 65, 84, 65, 83, 69,
   84, 49, 131, 6, 71, 79, 79, 83, 69, 49, 132, 8, 32, 33, 6, 18, 10,
   48, 0, 0, 133, 1, 1, 134, 1, 42, 135, 1, 0, 136, 2, 0, 128, 137, 1,
   0, 138, 1, 11, 171, 47, 134, 1, 1, 134, 2, 0, 128, 134, 2, 0, 255,
   134, 1, 127, 134, 1, 1, 134, 2, 0, 128, 134, 2, 0, 255, 131, 1, 255,
   133, 4, 127, 255, 255, 255, 133, 5, 0, 128, 0, 0, 0, 138, 4, 116,
   101, 115, 116]

/-- The Ethernet header of the reference GOOSE frame (VLAN tag 0x8100,
TCI 0x0001, EtherType 0x88B8, APPID 0x1001, length 140). -/
def referenceGooseHeader : EthernetHeader :=
  { dst_addr := [1, 12, 205, 1, 0, 1]
    src_addr := [0, 26, 182, 3, 47, 28]
    tpid := some [0x81, 0x00]
    tci := some [0x00, 0x01]
    ether_type := [0x88, 0xb8]
    appid := [0x10, 0x01]
    length := [0, 140] }

/-- The GOOSE PDU carried by the reference frame (goCbRef
IED1/LLN0$GO$gcb1, datSet IED1/LLN0$DATASET1, goID GOOSE1, stNum 1,
sqNum 42, confRev 128, eleven allData entries). -/
def referenceGoosePdu : GooseSpec.GoosePdu :=
  { goCbRef := [73, 69, 68, 49, 47, 76, 76, 78, 48, 36, 71, 79, 36,
      103, 99, 98, 49]
    timeAllowedToLive := 2000
    datSet := [73, 69, 68, 49, 47, 76, 76, 78, 48, 36, 68, 65, 84, 65,
      83, 69, 84, 49]
    goID := [71, 79, 79, 83, 69, 49]
    t := [32, 33, 6, 18, 10, 48, 0, 0]
    stNum := 1
    sqNum := 42
    simulation := false
    confRev := 128
    ndsCom := false
    numDatSetEntries := 11
    allData := [.UInt 1, .UInt 128, .UInt 255, .UInt 127, .UInt 1,
      .UInt 128, .UInt 255, .Boolean true, .Int 2147483647,
      .Int 2147483648, .VisibleString [116, 101, 115, 116]] }

/-- A VLAN-less SMV Ethernet header used as concrete test input. -/
def smvHeaderNoVlan : EthernetHeader :=
  { dst_addr := [1, 12, 205, 4, 0, 1]
    src_addr := [0, 26, 182, 3, 47, 28]
    tpid := none
    tci := none
    ether_type := [0x88, 0xba]
    appid := [0x40, 0x01]
    length := [0, 0] }

/-- A minimal ASDU with no optional fields and no samples, used as
concrete test input. -/
def smvMinimalAsdu : SavAsdu :=
  { msv_id := [65]
    dat_set := none
    smp_cnt := 0
    conf_rev := 0
    refr_tm := none
    smp_synch := 0
    smp_rate := none
    all_data := []
    smp_mod := none
    gm_identity := none }

/-- An SMV PDU whose security field holds five bytes. -/
def smvPduSec5 : SavPdu :=
  { sim := false
    no_asdu := 1
    security := some [1, 2, 3, 4, 5]
    sav_asdu := [smvMinimalAsdu] }

/-- An SMV PDU whose security field holds ten bytes. -/
def smvPduSec10 : SavPdu :=
  { sim := false
    no_asdu := 1
    security := some [1, 2, 3, 4, 5, 6, 7, 8, 9, 10]
    sav_asdu := [smvMinimalAsdu] }

/-- The frame produced by encode_smv for smvPduSec5. -/
def smvSecFrame5 : List Nat :=
  [1, 12, 205, 4, 0, 1, 0, 26, 182, 3, 47, 28, 136, 186, 64, 1, 0, 38,
   0, 0, 0, 0, 96, 28, 128, 1, 1, 129, 5, 1, 2, 3, 4, 5, 162, 16, 48,
   14, 128, 1, 65, 130, 1, 0, 131, 1, 0, 133, 1, 0, 135, 0]

/-- The frame produced by encode_smv for smvPduSec10. -/
def smvSecFrame10 : List Nat :=
  [1, 12, 205, 4, 0, 1, 0, 26, 182, 3, 47, 28, 136, 186, 64, 1, 0, 43,
   0, 0, 0, 0, 96, 33, 128, 1, 1, 129, 10, 1, 2, 3, 4, 5, 6, 7, 8, 9,
   10, 162, 16, 48, 14, 128, 1, 65, 130, 1, 0, 131, 1, 0, 133, 1, 0,
   135, 0]

/-! Helper lemmas for the Quality bit analysis. -/

theorem testBit_ite {c : Prop} [inst : Decidable c] (a b i : Nat) :
    (if c then a else b).testBit i = if c then a.testBit i else b.testBit i :=
  apply_ite (fun t => Nat.testBit t i) c a b

theorem and_shift_ne (x j : Nat) : (x &&& 2 ^ j != 0) = x.testBit j := by
  rw [Nat.and_two_pow]
  cases hx : x.testBit j <;> simp

theorem from_u16_validity_toNat (x : Nat) :
    ((Quality.from_u16 x).validity).toNat = (x >>> 14) &&& 3 := by
  simp only [Quality.from_u16]
  have h : (x >>> 14) &&& 3 < 4 :=
    lt_of_le_of_lt Nat.and_le_right (by norm_num)
  set v := (x >>> 14) &&& 3 with hv
  interval_cases v <;> rfl

theorem from_u16_overflow (x : Nat) :
    (Quality.from_u16 x).overflow = x.testBit 13 := by
  simp only [Quality.from_u16]
  rw [Nat.one_shiftLeft, and_shift_ne]

theorem from_u16_out_of_range (x : Nat) :
    (Quality.from_u16 x).out_of_range = x.testBit 12 := by
  simp only [Quality.from_u16]
  rw [Nat.one_shiftLeft, and_shift_ne]

theorem from_u16_bad_reference (x : Nat) :
    (Quality.from_u16 x).bad_reference = x.testBit 11 := by
  simp only [Quality.from_u16]
  rw [Nat.one_shiftLeft, and_shift_ne]

theorem from_u16_oscillatory (x : Nat) :
    (Quality.from_u16 x).oscillatory = x.testBit 10 := by
  simp only [Quality.from_u16]
  rw [Nat.one_shiftLeft, and_shift_ne]

theorem from_u16_failure (x : Nat) :
    (Quality.from_u16 x).failure = x.testBit 9 := by
  simp only [Quality.from_u16]
  rw [Nat.one_shiftLeft, and_shift_ne]

theorem from_u16_old_data (x : Nat) :
    (Quality.from_u16 x).old_data = x.testBit 8 := by
  simp only [Quality.from_u16]
  rw [Nat.one_shiftLeft, and_shift_ne]

theorem from_u16_inconsistent (x : Nat) :
    (Quality.from_u16 x).inconsistent = x.testBit 7 := by
  simp only [Quality.from_u16]
  rw [Nat.one_shiftLeft, and_shift_ne]

theorem from_u16_inaccurate (x : Nat) :
    (Quality.from_u16 x).inaccurate = x.testBit 6 := by
  simp only [Quality.from_u16]
  rw [Nat.one_shiftLeft, and_shift_ne]

theorem from_u16_source_substituted (x : Nat) :
    (Quality.from_u16 x).source_substituted = x.testBit 5 := by
  simp only [Quality.from_u16]
  rw [Nat.one_shiftLeft, and_shift_ne]

theorem from_u16_test_flag (x : Nat) :
    (Quality.from_u16 x).test = x.testBit 4 := by
  simp only [Quality.from_u16]
  rw [Nat.one_shiftLeft, and_shift_ne]

theorem from_u16_operator_blocked (x : Nat) :
    (Quality.from_u16 x).operator_blocked = x.testBit 3 := by
  simp only [Quality.from_u16]
  rw [Nat.one_shiftLeft, and_shift_ne]

theorem ite_or_lt16 {c : Prop} [inst : Decidable c] {a j : Nat}
    (ha : a < 65536) (hj : 1 <<< j < 65536) :
    (if c then a ||| 1 <<< j else a) < 65536 := by
  split
  · have h : (65536 : Nat) = 2 ^ 16 := by norm_num
    rw [h] at ha hj ⊢
    exact Nat.or_lt_two_pow ha hj
  · exact ha

theorem to_u16_lt (q : Quality) : q.to_u16 < 65536 := by
  simp only [Quality.to_u16]
  iterate 11 refine ite_or_lt16 ?_ (by decide)
  cases q.validity <;> decide

/-- Claim C10: Quality.from_u16 ignores the low 3 padding bits and
Quality.to_u16 always produces a value with the low 3 bits zero, so
to_u16 (from_u16 x) = x AND 0xFFF8 for every 16-bit container value; in
particular the composition is the identity on all values whose low 3 bits
are zero. -/
theorem quality_to_u16_from_u16_masks_low_bits (x : Nat) (hx : x < 65536) :
    Quality.to_u16 (Quality.from_u16 x) = x &&& 0xFFF8 := by
  apply Nat.eq_of_testBit_eq
  intro i
  rcases Nat.lt_or_ge i 16 with hi | hi
  · simp only [Quality.to_u16, from_u16_validity_toNat, from_u16_overflow,
      from_u16_out_of_range, from_u16_bad_reference, from_u16_oscillatory,
      from_u16_failure, from_u16_old_data, from_u16_inconsistent,
      from_u16_inaccurate, from_u16_source_substituted, from_u16_test_flag,
      from_u16_operator_blocked]
    interval_cases i <;>
      (simp only [testBit_ite, Nat.testBit_or, Nat.testBit_shiftLeft,
         Nat.testBit_and, Nat.testBit_shiftRight]
       norm_num [Nat.testBit_to_div_mod])
  · have h1 : Nat.testBit (Quality.to_u16 (Quality.from_u16 x)) i = false := by
      apply Nat.testBit_lt_two_pow
      calc Quality.to_u16 (Quality.from_u16 x) < 65536 := to_u16_lt _
        _ = 2 ^ 16 := by norm_num
        _ ≤ 2 ^ i := Nat.pow_le_pow_right (by norm_num) hi
    have h2 : Nat.testBit (x &&& 0xFFF8) i = false := by
      apply Nat.testBit_lt_two_pow
      calc x &&& 0xFFF8 ≤ 0xFFF8 := Nat.and_le_right
        _ < 2 ^ 16 := by norm_num
        _ ≤ 2 ^ i := Nat.pow_le_pow_right (by norm_num) hi
    rw [h1, h2]

/-- Witness for claim C10 at the concrete container value 0xABCD. -/
theorem quality_to_u16_from_u16_masks_low_bits_witness :
    (0xABCD : Nat) < 65536 ∧
    Quality.to_u16 (Quality.from_u16 0xABCD) = 0xABCD &&& 0xFFF8 :=
  ⟨by decide, quality_to_u16_from_u16_masks_low_bits 0xABCD (by decide)⟩

/-- Claim C4: the claim states that every length n with 256 <= n < 65536
is encoded as 0x82 with two big-endian bytes, but size_length and
encode_tag_length use a 65535 threshold, so the boundary value 65535 is
encoded in the 0x83 three-byte long form (and its length field is sized
as 4 bytes, not 3): the code contradicts its own documentation at
n = 65535. -/
theorem encode_tag_length_boundary_65535 :
    EncodeBasics.size_length 65535 = 4 ∧
    EncodeBasics.encode_tag_length 0x30 65535 (List.replicate 8 0) 0 =
      .ok ([0x30, 0x83, 0x00, 0xFF, 0xFF, 0, 0, 0], 5) ∧
    EncodeBasics.size_length 65534 = 3 ∧
    EncodeBasics.encode_tag_length 0x30 65534 (List.replicate 8 0) 0 =
      .ok ([0x30, 0x82, 0xFF, 0xFE, 0, 0, 0, 0], 4) := by
  refine ⟨by decide, by decide, by decide, by decide⟩

/-- Claim C5: the claim states that size_iec_data_element equals the
bytes written by encode_iec_data_element for every value, but for
Int16u 0xFFFF the size function answers 5 while the encoder (which
wrongly strips leading 0xFF bytes from an unsigned value) writes only 4
bytes, so the two disagree. -/
theorem size_mismatch_encode_int16u_ffff :
    EncodeBasics.size_iec_data_element (.Int16u 0xFFFF) = 5 ∧
    EncodeBasics.encode_iec_data_element (.Int16u 0xFFFF)
      (List.replicate 8 0) 0 = .ok ([0x86, 2, 0, 0xFF, 0, 0, 0, 0], 4) := by
  constructor
  · simp only [EncodeBasics.size_iec_data_element]
    decide
  · simp only [EncodeBasics.encode_iec_data_element]
    decide

/-- Claim C9: when a nested element does not fit the buffer,
encode_structure still returns Ok: on a 2-byte buffer it writes the tag
and the summed length 3, the Boolean element encoder fails (the buffer
ends), the error is discarded by unwrap_or, and the call returns Ok with
position 2, so the declared length 3 exceeds the zero content bytes
actually written. -/
theorem encode_structure_swallows_element_errors :
    EncodeBasics.size_iec_data_element (.Boolean true) = 3 ∧
    EncodeBasics.encode_iec_data_element (.Boolean true) [0xa2, 3] 2 =
      .error (.general
        "Buffer does not have enough capacity to encode the boolean value."
        2) ∧
    EncodeBasics.encode_structure 0xa2 [.Boolean true]
      (List.replicate 2 0) 0 = .ok ([0xa2, 3], 2) := by
  refine ⟨?_, ?_, ?_⟩
  · simp only [EncodeBasics.size_iec_data_element]
  · simp only [EncodeBasics.encode_iec_data_element]
    decide
  · simp only [EncodeBasics.encode_structure, EncodeBasics.size_iec_list,
      EncodeBasics.size_iec_data_element, EncodeBasics.encode_structure_loop,
      EncodeBasics.encode_iec_data_element]
    decide

/-- Claim C1: the claim states that the hand-rolled decode primitives
return a Result-style error on malformed or truncated input and never
panic, but the decode_basics.rs revision panics: decode_tag_length panics
on an empty buffer and on a tag without a length byte, and
decode_iec_data_element panics on an unknown value tag. -/
theorem decode_primitives_panic_on_malformed_input :
    (DecodeBasics.decode_tag_length [] 0).isPanic = true ∧
    (DecodeBasics.decode_tag_length [0x83] 0).isPanic = true ∧
    (DecodeBasics.decode_iec_data_element 8 [0x99, 0] 0).isPanic = true ∧
    (DecodeBasics.decode_iec_data_element 8 [0x85, 9, 0] 0).isPanic = true := by
  refine ⟨by decide, by decide, by decide, by decide⟩

/-- Claim C7: the claim states that init sets currentInterval to
min_repetition and that every timer fire doubles the interval up to
max_repetition, but the init handler sets current_interval to
max_repetition, and a sender iteration only increments sq_num: the
interval is captured once before the loop and never changes. -/
theorem goose_tx_init_and_timer_diverge :
    (GooseTx.goose_init_state ⟨10, 1000⟩).current_interval = 1000 ∧
    (GooseTx.goose_init_state ⟨10, 1000⟩).current_interval ≠ 10 ∧
    (∀ s : GooseTx.GooseTxState,
      (GooseTx.goose_sender_iteration s).current_interval =
        s.current_interval) ∧
    (∀ s : GooseTx.GooseTxState,
      (GooseTx.goose_sender_iteration s).sq_num = (s.sq_num + 1) % 2 ^ 32) := by
  refine ⟨rfl, by decide, fun s => rfl, fun s => rfl⟩

/-- Claim C3: the claim states that decoding an encoded SavPdu returns an
equal SavPdu with the security field carried through opaquely for any
length, but decode_smv only records a presence flag for security and
unconditionally skips 12 bytes: with a five-byte security field the
decoder fails on the frame its own encoder produced, and with a ten-byte
security field it succeeds but the decoded record holds no security
bytes at all (its security field is the Boolean true). -/
theorem smv_security_field_not_round_tripped :
    EncodeSmv.encode_smv smvHeaderNoVlan smvPduSec5 = .ok smvSecFrame5 ∧
    DecodeSmv.decode_smv smvSecFrame5 22 =
      .error ⟨"Attempt to read bytes exceeds buffer length", 48⟩ ∧
    EncodeSmv.encode_smv smvHeaderNoVlan smvPduSec10 = .ok smvSecFrame10 ∧
    DecodeSmv.decode_smv smvSecFrame10 22 =
      .ok ({ sim := false
             no_asdu := 1
             security := true
             sav_asdu := [smvMinimalAsdu] }, 57) := by
  refine ⟨by decide, by decide, by decide, by decide⟩

/-! Helper lemmas about buffer writes and the bit-string codec. -/

theorem writeBytes_length {buf bs : List Nat} {idx : Nat}
    (h : idx + bs.length ≤ buf.length) :
    (writeBytes buf idx bs).length = buf.length := by
  simp [writeBytes]
  omega

theorem writeBytes_getD_lt {buf bs : List Nat} {idx i : Nat} (d : Nat)
    (h : i < idx) (hb : idx ≤ buf.length) :
    (writeBytes buf idx bs).getD i d = buf.getD i d := by
  have h1 : i < (buf.take idx).length := by
    simp [List.length_take]
    omega
  simp only [writeBytes, List.getD_eq_getElem?_getD, List.append_assoc]
  rw [List.getElem?_append_left h1, List.getElem?_take_of_lt h]

theorem writeBytes_getD_mid {buf bs : List Nat} {idx i : Nat} (d : Nat)
    (h1 : idx ≤ i) (h2 : i < idx + bs.length) (h3 : idx ≤ buf.length) :
    (writeBytes buf idx bs).getD i d = bs.getD (i - idx) d := by
  have ht : (buf.take idx).length = idx := by simp; omega
  simp only [writeBytes, List.getD_eq_getElem?_getD, List.append_assoc]
  rw [List.getElem?_append_right (by omega : (buf.take idx).length ≤ i)]
  rw [ht]
  rw [List.getElem?_append_left (by omega : i - idx < bs.length)]

theorem writeBytes_getD_ge {buf bs : List Nat} {idx i : Nat} (d : Nat)
    (h1 : idx + bs.length ≤ i) (h3 : idx ≤ buf.length) :
    (writeBytes buf idx bs).getD i d = buf.getD i d := by
  have ht : (buf.take idx).length = idx := by simp; omega
  simp only [writeBytes, List.getD_eq_getElem?_getD, List.append_assoc]
  rw [List.getElem?_append_right (by omega : (buf.take idx).length ≤ i)]
  rw [ht]
  rw [List.getElem?_append_right (by omega : bs.length ≤ i - idx)]
  rw [List.getElem?_drop]
  have hX : idx + bs.length + (i - idx - bs.length) = i := by omega
  rw [hX]

theorem reverseBits8_involutive : ∀ b < 256, reverseBits8 (reverseBits8 b) = b := by decide

theorem encode_tag_length_ok_shape {tag value : Nat} {buffer buf1 : List Nat}
    {idx pos1 : Nat}
    (h : EncodeBasics.encode_tag_length tag value buffer idx = .ok (buf1, pos1)) :
    ∃ hdr : List Nat, hdr.length = 1 + EncodeBasics.size_length value ∧
      buf1 = writeBytes buffer idx hdr ∧
      pos1 = idx + 1 + EncodeBasics.size_length value ∧
      idx + 1 + EncodeBasics.size_length value ≤ buffer.length := by
  unfold EncodeBasics.encode_tag_length at h
  by_cases hcap : buffer.length < idx + (1 + EncodeBasics.size_length value)
  · rw [if_pos hcap] at h
    simp at h
  rw [if_neg hcap] at h
  by_cases h128 : value < 128
  · rw [if_pos h128] at h
    have hs : EncodeBasics.size_length value = 1 := by
      simp [EncodeBasics.size_length, h128]
    simp only [Except.ok.injEq, Prod.mk.injEq] at h
    obtain ⟨hb, hp⟩ := h
    exact ⟨[tag, value], by simp [hs], hb.symm, by omega, by omega⟩
  rw [if_neg h128] at h
  by_cases h256 : value < 256
  · rw [if_pos h256] at h
    have hs : EncodeBasics.size_length value = 2 := by
      simp [EncodeBasics.size_length, h128, h256]
    simp only [Except.ok.injEq, Prod.mk.injEq] at h
    obtain ⟨hb, hp⟩ := h
    exact ⟨[tag, 0x81, value], by simp [hs], hb.symm, by omega, by omega⟩
  rw [if_neg h256] at h
  by_cases h65535 : value < 65535
  · rw [if_pos h65535] at h
    have hs : EncodeBasics.size_length value = 3 := by
      simp [EncodeBasics.size_length, h128, h256, h65535]
    simp only [Except.ok.injEq, Prod.mk.injEq] at h
    obtain ⟨hb, hp⟩ := h
    exact ⟨[tag, 0x82, value >>> 8 % 256, value % 256], by simp [hs],
      hb.symm, by omega, by omega⟩
  rw [if_neg h65535] at h
  by_cases hover : 1 <<< 24 ≤ value
  · rw [if_pos hover] at h
    simp at h
  rw [if_neg hover] at h
  have hs : EncodeBasics.size_length value = 4 := by
    simp [EncodeBasics.size_length, h128, h256, h65535]
  simp only [Except.ok.injEq, Prod.mk.injEq] at h
  obtain ⟨hb, hp⟩ := h
  exact ⟨[tag, 0x83, value >>> 16 % 256, value >>> 8 % 256, value % 256],
    by simp [hs], hb.symm, by omega, by omega⟩

theorem coded_enum_roundtrip
    (value : List Nat) (padding : Nat) (buffer buf2 : List Nat)
    (idx pos2 : Nat)
    (hb : ∀ b ∈ value, b < 256)
    (henc : EncodeBasics.encode_coded_enum 0x84 value padding buffer idx =
      .ok (buf2, pos2)) :
    DecodeBasics.decode_bit_string buf2
      (idx + 1 + EncodeBasics.size_length (value.length + 1))
      (value.length + 1) = .ok (value, padding, pos2) := by
  unfold EncodeBasics.encode_coded_enum at henc
  by_cases hcap : buffer.length <
      idx + (1 + EncodeBasics.size_length (value.length + 1) + (value.length + 1))
  · rw [if_pos hcap] at henc
    simp at henc
  rw [if_neg hcap] at henc
  cases heq : EncodeBasics.encode_tag_length 0x84 (value.length + 1) buffer idx with
  | error e =>
    rw [heq] at henc
    simp at henc
  | ok res =>
    obtain ⟨buf1, pos1⟩ := res
    rw [heq] at henc
    simp only [Except.ok.injEq, Prod.mk.injEq] at henc
    obtain ⟨hb2, hp2⟩ := henc
    obtain ⟨hdr, hhdr, hbuf1, hpos1, hcap2⟩ := encode_tag_length_ok_shape heq
    have hwire_len : (value.reverse.map reverseBits8).length = value.length := by
      simp
    have hcontent_len :
        (padding :: value.reverse.map reverseBits8).length = value.length + 1 := by
      simp
    have hlen1 : buf1.length = buffer.length := by
      rw [hbuf1]
      exact writeBytes_length (by omega)
    have hlen2 : buf2.length = buf1.length := by
      rw [← hb2]
      refine writeBytes_length ?_
      rw [hcontent_len, hlen1]
      omega
    set S := EncodeBasics.size_length (value.length + 1) with hS
    set start := idx + 1 + S with hstart
    have hpos1s : pos1 = start := hpos1
    have hmid : ∀ k, k < value.length + 1 →
        buf2.getD (start + k) 0 =
          (padding :: value.reverse.map reverseBits8).getD k 0 := by
      intro k hk
      rw [← hb2, hpos1s]
      rw [writeBytes_getD_mid 0 (by omega)
        (by rw [hcontent_len]; omega) (by omega)]
      congr 1
      omega
    unfold DecodeBasics.decode_bit_string
    rw [if_neg (by rw [hlen2, hlen1]; omega :
      ¬ buf2.length < start + (value.length + 1))]
    simp only [PanicOr.ok.injEq, Prod.mk.injEq, Nat.add_sub_cancel]
    refine ⟨?_, ?_, ?_⟩
    · apply List.ext_getElem
      · simp
      · intro j h1 h2
        simp only [List.getElem_map, List.getElem_range]
        have hj : j < value.length := by simpa using h2
        have hstep : start + 1 + (value.length - 1 - j) =
            start + (1 + (value.length - 1 - j)) := by omega
        rw [hstep, hmid _ (by omega)]
        rw [show 1 + (value.length - 1 - j) = (value.length - 1 - j) + 1
          from by omega]
        have hlt : value.length - 1 - j <
            (value.reverse.map reverseBits8).length := by
          rw [hwire_len]
          omega
        rw [List.getD_cons_succ, List.getD_eq_getElem _ _ hlt]
        simp only [List.getElem_map]
        rw [List.getElem_reverse]
        have hix : value.length - 1 - (value.length - 1 - j) = j := by omega
        simp only [hix]
        exact reverseBits8_involutive _ (hb _ (value.getElem_mem hj))
    · rw [show start = start + 0 from by omega, hmid 0 (by omega)]
      simp
    · omega

/-- Claim C6: the IEC 61850-8-1 bit-string codec reverses byte order and
reverses the bit order within each byte symmetrically on encode and
decode, so decoding after encoding recovers (padding, bytes) exactly;
concretely, encoding bytes 0x11 0x55 with padding 2 writes the wire
content 0x02 0xAA 0x88, and that wire content decodes back to bytes
0x11 0x55 with padding 2. -/
theorem bit_string_codec_symmetric :
    (∀ (value : List Nat) (padding : Nat) (buffer buf2 : List Nat)
       (idx pos2 : Nat), (∀ b ∈ value, b < 256) →
       EncodeBasics.encode_coded_enum 0x84 value padding buffer idx =
         .ok (buf2, pos2) →
       DecodeBasics.decode_bit_string buf2
         (idx + 1 + EncodeBasics.size_length (value.length + 1))
         (value.length + 1) = .ok (value, padding, pos2)) ∧
    EncodeBasics.encode_coded_enum 0x84 [0x11, 0x55] 2
      (List.replicate 8 0) 0 = .ok ([0x84, 3, 2, 0xAA, 0x88, 0, 0, 0], 5) ∧
    DecodeBasics.decode_bit_string [0x84, 3, 2, 0xAA, 0x88] 2 3 =
      .ok ([0x11, 0x55], 2, 5) := by
  refine ⟨coded_enum_roundtrip, by decide, by decide⟩

/-- Witness for claim C6 at the concrete input of the specification
scenario (bytes 0x11 0x55, padding 2, an 8-byte buffer). -/
theorem bit_string_codec_symmetric_witness :
    (∀ b ∈ [0x11, 0x55], b < 256) ∧
    DecodeBasics.decode_bit_string [0x84, 3, 2, 0xAA, 0x88, 0, 0, 0] 2 3 =
      .ok ([0x11, 0x55], 2, 5) :=
  ⟨by decide, bit_string_codec_symmetric.1 [0x11, 0x55] 2
    (List.replicate 8 0) [0x84, 3, 2, 0xAA, 0x88, 0, 0, 0] 0 5
    (by decide) (by decide)⟩

/-! Helper lemmas for the SMV encoder: buffer writes never shrink the
buffer, and every encoder of encode_smv.rs leaves the bytes strictly
below its starting position untouched. -/

theorem writeBytes_length_ge {buf bs : List Nat} {idx : Nat} :
    buf.length ≤ (writeBytes buf idx bs).length := by
  simp [writeBytes]
  omega

theorem getD_set_self {l : List Nat} {n a d : Nat} (h : n < l.length) :
    (l.set n a).getD n d = a := by
  rw [List.getD_eq_getElem?_getD]
  rw [List.getElem?_eq_getElem (by simpa using h)]
  simp [List.getElem_set]

theorem pres_trans {b0 b1 b2 : List Nat} {p0 p1 p2 : Nat}
    (h1 : p0 ≤ p1 ∧ ∀ d i, i < p0 → b1.getD i d = b0.getD i d)
    (h2 : p1 ≤ p2 ∧ ∀ d i, i < p1 → b2.getD i d = b1.getD i d) :
    p0 ≤ p2 ∧ ∀ d i, i < p0 → b2.getD i d = b0.getD i d :=
  ⟨h1.1.trans h2.1, fun d i hi =>
    (h2.2 d i (lt_of_lt_of_le hi h1.1)).trans (h1.2 d i hi)⟩

theorem smv_encode_tag_length_ok_shape {tag value : Nat}
    {buffer buf1 : List Nat} {idx pos1 : Nat}
    (h : EncodeSmv.encode_tag_length tag value buffer idx = .ok (buf1, pos1)) :
    ∃ hdr : List Nat, hdr.length = 1 + EncodeSmv.size_length value ∧
      buf1 = writeBytes buffer idx hdr ∧
      pos1 = idx + 1 + EncodeSmv.size_length value ∧
      idx + 1 + EncodeSmv.size_length value ≤ buffer.length := by
  unfold EncodeSmv.encode_tag_length at h
  by_cases hcap : buffer.length < idx + (1 + EncodeSmv.size_length value)
  · rw [if_pos hcap] at h
    simp at h
  rw [if_neg hcap] at h
  by_cases h128 : value < 128
  · rw [if_pos h128] at h
    have hs : EncodeSmv.size_length value = 1 := by
      simp [EncodeSmv.size_length, h128]
    simp only [Except.ok.injEq, Prod.mk.injEq] at h
    obtain ⟨hb, hp⟩ := h
    exact ⟨[tag, value], by simp [hs], hb.symm, by omega, by omega⟩
  rw [if_neg h128] at h
  by_cases h256 : value < 256
  · rw [if_pos h256] at h
    have hs : EncodeSmv.size_length value = 2 := by
      simp [EncodeSmv.size_length, h128, h256]
    simp only [Except.ok.injEq, Prod.mk.injEq] at h
    obtain ⟨hb, hp⟩ := h
    exact ⟨[tag, 0x81, value], by simp [hs], hb.symm, by omega, by omega⟩
  rw [if_neg h256] at h
  by_cases h65535 : value < 65535
  · rw [if_pos h65535] at h
    have hs : EncodeSmv.size_length value = 3 := by
      simp [EncodeSmv.size_length, h128, h256, h65535]
    simp only [Except.ok.injEq, Prod.mk.injEq] at h
    obtain ⟨hb, hp⟩ := h
    exact ⟨[tag, 0x82, value >>> 8 % 256, value % 256], by simp [hs],
      hb.symm, by omega, by omega⟩
  rw [if_neg h65535] at h
  by_cases hover : 1 <<< 24 ≤ value
  · rw [if_pos hover] at h
    simp at h
  rw [if_neg hover] at h
  have hs : EncodeSmv.size_length value = 4 := by
    simp [EncodeSmv.size_length, h128, h256, h65535]
  simp only [Except.ok.injEq, Prod.mk.injEq] at h
  obtain ⟨hb, hp⟩ := h
  exact ⟨[tag, 0x83, value >>> 16 % 256, value >>> 8 % 256, value % 256],
    by simp [hs], hb.symm, by omega, by omega⟩

theorem smv_encode_tag_length_pres {tag value : Nat} {buffer buf2 : List Nat}
    {pos pos2 : Nat}
    (h : EncodeSmv.encode_tag_length tag value buffer pos = .ok (buf2, pos2)) :
    pos ≤ pos2 ∧ ∀ d i, i < pos → buf2.getD i d = buffer.getD i d := by
  obtain ⟨hdr, hh, hb, hp, hc⟩ := smv_encode_tag_length_ok_shape h
  subst hb
  exact ⟨by omega, fun d i hi => writeBytes_getD_lt d hi (by omega)⟩

theorem smv_encode_ber_pres {tag : Nat} {value buffer buf2 : List Nat}
    {pos pos2 : Nat}
    (h : EncodeSmv.encode_ber tag value buffer pos = .ok (buf2, pos2)) :
    pos ≤ pos2 ∧ ∀ d i, i < pos → buf2.getD i d = buffer.getD i d := by
  simp only [EncodeSmv.encode_ber] at h
  by_cases hcap : buffer.length <
      pos + (1 + EncodeSmv.size_length value.length + value.length)
  · rw [if_pos hcap] at h
    simp at h
  rw [if_neg hcap] at h
  cases htl : EncodeSmv.encode_tag_length tag value.length buffer pos with
  | error e =>
    rw [htl] at h
    simp at h
  | ok r =>
    obtain ⟨b1, p1⟩ := r
    rw [htl] at h
    simp only [Except.ok.injEq, Prod.mk.injEq] at h
    obtain ⟨hb, hp⟩ := h
    subst hb
    obtain ⟨hdr, hh, hb1, hp1, hc⟩ := smv_encode_tag_length_ok_shape htl
    obtain ⟨hle1, hpr1⟩ := smv_encode_tag_length_pres htl
    have hb1len : b1.length = buffer.length := by
      rw [hb1]
      exact writeBytes_length (by omega)
    refine ⟨by omega, fun d i hi => ?_⟩
    rw [writeBytes_getD_lt d (lt_of_lt_of_le hi hle1) (by omega)]
    exact hpr1 d i hi

theorem smv_encode_unsigned_integer_pres {tag : Nat} {value buffer buf2 : List Nat}
    {pos pos2 : Nat}
    (h : EncodeSmv.encode_unsigned_integer tag value buffer pos =
      .ok (buf2, pos2)) :
    pos ≤ pos2 ∧ ∀ d i, i < pos → buf2.getD i d = buffer.getD i d := by
  simp only [EncodeSmv.encode_unsigned_integer] at h
  split at h
  · exact smv_encode_ber_pres h
  · split at h
    · exact smv_encode_ber_pres h
    · exact smv_encode_ber_pres h

theorem smv_encode_integer_pres {tag : Nat} {value buffer buf2 : List Nat}
    {pos pos2 : Nat}
    (h : EncodeSmv.encode_integer tag value buffer pos = .ok (buf2, pos2)) :
    pos ≤ pos2 ∧ ∀ d i, i < pos → buf2.getD i d = buffer.getD i d := by
  rw [EncodeSmv.encode_integer] at h
  exact smv_encode_ber_pres h

theorem smv_encode_octet_string_pres {tag : Nat} {value buffer buf2 : List Nat}
    {pos pos2 : Nat}
    (h : EncodeSmv.encode_octet_string tag value buffer pos = .ok (buf2, pos2)) :
    pos ≤ pos2 ∧ ∀ d i, i < pos → buf2.getD i d = buffer.getD i d := by
  rw [EncodeSmv.encode_octet_string] at h
  exact smv_encode_ber_pres h

theorem smv_encode_string_pres {tag : Nat} {value buffer buf2 : List Nat}
    {pos pos2 : Nat}
    (h : EncodeSmv.encode_string tag value buffer pos = .ok (buf2, pos2)) :
    pos ≤ pos2 ∧ ∀ d i, i < pos → buf2.getD i d = buffer.getD i d := by
  rw [EncodeSmv.encode_string] at h
  exact smv_encode_ber_pres h

theorem smv_encode_sample_pres {buffer buf2 : List Nat} {pos pos2 : Nat}
    {sample : Sample}
    (h : EncodeSmv.encode_sample buffer pos sample = .ok (buf2, pos2)) :
    pos ≤ pos2 ∧ ∀ d i, i < pos → buf2.getD i d = buffer.getD i d := by
  simp only [EncodeSmv.encode_sample] at h
  split at h
  · simp at h
  · rename_i b1 p1 heq
    exact pres_trans (smv_encode_integer_pres heq) (smv_encode_ber_pres h)

theorem smv_encode_samples_loop_pres (ss : List Sample) :
    ∀ {buffer buf2 : List Nat} {pos pos2 : Nat},
    EncodeSmv.encode_samples_loop ss buffer pos = .ok (buf2, pos2) →
    pos ≤ pos2 ∧ ∀ d i, i < pos → buf2.getD i d = buffer.getD i d := by
  induction ss with
  | nil =>
    intro buffer buf2 pos pos2 h
    simp only [EncodeSmv.encode_samples_loop, Except.ok.injEq,
      Prod.mk.injEq] at h
    obtain ⟨hb, hp⟩ := h
    subst hb
    subst hp
    exact ⟨le_refl _, fun d i _ => rfl⟩
  | cons s ss ih =>
    intro buffer buf2 pos pos2 h
    simp only [EncodeSmv.encode_samples_loop] at h
    split at h
    · simp at h
    · rename_i b1 p1 heq
      exact pres_trans (smv_encode_sample_pres heq) (ih h)

theorem smv_encode_samples_pres {buffer buf2 : List Nat} {pos pos2 : Nat}
    {samples : List Sample}
    (h : EncodeSmv.encode_samples buffer pos samples = .ok (buf2, pos2)) :
    pos ≤ pos2 ∧ ∀ d i, i < pos → buf2.getD i d = buffer.getD i d := by
  simp only [EncodeSmv.encode_samples] at h
  split at h
  · simp at h
  · rename_i b1 p1 heq
    exact pres_trans (smv_encode_tag_length_pres heq)
      (smv_encode_samples_loop_pres samples h)

theorem pres_of_ok_eq {b b' : List Nat} {p p' : Nat}
    (h : (Except.ok (b, p) : Except EncodeError (List Nat × Nat)) =
      .ok (b', p')) :
    p ≤ p' ∧ ∀ d i, i < p → b'.getD i d = b.getD i d := by
  simp only [Except.ok.injEq, Prod.mk.injEq] at h
  obtain ⟨hb, hp⟩ := h
  subst hb
  subst hp
  exact ⟨le_refl _, fun d i _ => rfl⟩

theorem smv_encode_sav_asdu_pres {buffer buf2 : List Nat} {pos pos2 : Nat}
    {asdu : SavAsdu}
    (h : EncodeSmv.encode_sav_asdu buffer pos asdu = .ok (buf2, pos2)) :
    pos ≤ pos2 ∧ ∀ d i, i < pos → buf2.getD i d = buffer.getD i d := by
  simp only [EncodeSmv.encode_sav_asdu] at h
  split at h
  · simp at h
  rename_i b1 p1 h1
  split at h
  · simp at h
  rename_i b2 p2 h2
  split at h
  · simp at h
  rename_i b3 p3 h3
  have pres3 : p2 ≤ p3 ∧ ∀ d i, i < p2 → b3.getD i d = b2.getD i d := by
    cases hds : asdu.dat_set with
    | some ds =>
      rw [hds] at h3
      exact smv_encode_string_pres h3
    | none =>
      rw [hds] at h3
      exact pres_of_ok_eq h3
  split at h
  · simp at h
  rename_i b4 p4 h4
  split at h
  · simp at h
  rename_i b5 p5 h5
  split at h
  · simp at h
  rename_i b6 p6 h6
  have pres6 : p5 ≤ p6 ∧ ∀ d i, i < p5 → b6.getD i d = b5.getD i d := by
    cases hrt : asdu.refr_tm with
    | some rt =>
      rw [hrt] at h6
      exact smv_encode_octet_string_pres h6
    | none =>
      rw [hrt] at h6
      exact pres_of_ok_eq h6
  split at h
  · simp at h
  rename_i b7 p7 h7
  split at h
  · simp at h
  rename_i b8 p8 h8
  have pres8 : p7 ≤ p8 ∧ ∀ d i, i < p7 → b8.getD i d = b7.getD i d := by
    cases hsr : asdu.smp_rate with
    | some r =>
      rw [hsr] at h8
      exact smv_encode_unsigned_integer_pres h8
    | none =>
      rw [hsr] at h8
      exact pres_of_ok_eq h8
  split at h
  · simp at h
  rename_i b9 p9 h9
  split at h
  · simp at h
  rename_i b10 p10 h10
  have pres10 : p9 ≤ p10 ∧ ∀ d i, i < p9 → b10.getD i d = b9.getD i d := by
    cases hsm : asdu.smp_mod with
    | some m =>
      rw [hsm] at h10
      exact smv_encode_unsigned_integer_pres h10
    | none =>
      rw [hsm] at h10
      exact pres_of_ok_eq h10
  have pres11 : p10 ≤ pos2 ∧ ∀ d i, i < p10 → buf2.getD i d = b10.getD i d := by
    cases hgm : asdu.gm_identity with
    | some gm =>
      rw [hgm] at h
      exact smv_encode_octet_string_pres h
    | none =>
      rw [hgm] at h
      exact pres_of_ok_eq h
  exact pres_trans (smv_encode_tag_length_pres h1)
    (pres_trans (smv_encode_string_pres h2)
      (pres_trans pres3
        (pres_trans (smv_encode_unsigned_integer_pres h4)
          (pres_trans (smv_encode_unsigned_integer_pres h5)
            (pres_trans pres6
              (pres_trans (smv_encode_unsigned_integer_pres h7)
                (pres_trans pres8
                  (pres_trans (smv_encode_samples_pres h9)
                    (pres_trans pres10 pres11)))))))))

theorem smv_encode_asdus_loop_pres (asdus : List SavAsdu) :
    ∀ {buffer buf2 : List Nat} {pos pos2 : Nat},
    EncodeSmv.encode_asdus_loop asdus buffer pos = .ok (buf2, pos2) →
    pos ≤ pos2 ∧ ∀ d i, i < pos → buf2.getD i d = buffer.getD i d := by
  induction asdus with
  | nil =>
    intro buffer buf2 pos pos2 h
    simp only [EncodeSmv.encode_asdus_loop] at h
    exact pres_of_ok_eq h
  | cons a as_rest ih =>
    intro buffer buf2 pos pos2 h
    simp only [EncodeSmv.encode_asdus_loop] at h
    split at h
    · simp at h
    · rename_i b1 p1 heq
      exact pres_trans (smv_encode_sav_asdu_pres heq) (ih h)

theorem smv_encode_sav_pdu_pres {buffer buf2 : List Nat} {pos pos2 : Nat}
    {pdu : SavPdu}
    (h : EncodeSmv.encode_sav_pdu buffer pos pdu = .ok (buf2, pos2)) :
    pos ≤ pos2 ∧ ∀ d i, i < pos → buf2.getD i d = buffer.getD i d := by
  simp only [EncodeSmv.encode_sav_pdu] at h
  split at h
  · simp at h
  rename_i b1 p1 h1
  split at h
  · simp at h
  rename_i b2 p2 h2
  split at h
  · simp at h
  rename_i b3 p3 h3
  have pres3 : p2 ≤ p3 ∧ ∀ d i, i < p2 → b3.getD i d = b2.getD i d := by
    cases hsec : pdu.security with
    | some sec =>
      rw [hsec] at h3
      exact smv_encode_octet_string_pres h3
    | none =>
      rw [hsec] at h3
      exact pres_of_ok_eq h3
  split at h
  · simp at h
  rename_i b4 p4 h4
  exact pres_trans (smv_encode_tag_length_pres h1)
    (pres_trans (smv_encode_unsigned_integer_pres h2)
      (pres_trans pres3
        (pres_trans (smv_encode_tag_length_pres h4)
          (smv_encode_asdus_loop_pres pdu.sav_asdu h))))

theorem reserved1_byte {b7 : List Nat} {off off2 : Nat}
    (h : off + 4 ≤ b7.length) (h2 : off2 = off + 2) :
    (writeBytes (writeBytes b7 off [0, 0]) off2 [0, 0]).getD off 0 = 0 := by
  subst h2
  have hl8 : (writeBytes b7 off [0, 0]).length = b7.length :=
    writeBytes_length (by simp; omega)
  rw [writeBytes_getD_lt 0 (by omega) (by rw [hl8]; omega)]
  rw [writeBytes_getD_mid 0 (le_refl off) (by simp) (by omega)]
  simp

theorem encode_ethernet_header_vlan_props (buffer : List Nat)
    (header : EthernetHeader) (length : Nat) {tp tc : List Nat}
    (htp : header.tpid = some tp) (htc : header.tci = some tc)
    (hbl : 26 ≤ buffer.length) :
    ∃ bout : List Nat,
      EncodeSmv.encode_ethernet_header buffer header length = (bout, 26) ∧
      bout.getD 22 0 = 0 ∧ 26 ≤ bout.length := by
  simp only [EncodeSmv.encode_ethernet_header, htp, htc]
  refine ⟨_, rfl, ?_, ?_⟩
  · refine reserved1_byte ?_ (by norm_num)
    refine le_trans (by omega : 22 + 4 ≤ 26) (le_trans hbl ?_)
    refine le_trans ?_ writeBytes_length_ge
    refine le_trans ?_ writeBytes_length_ge
    refine le_trans ?_ writeBytes_length_ge
    refine le_trans ?_ writeBytes_length_ge
    refine le_trans ?_ writeBytes_length_ge
    refine le_trans ?_ writeBytes_length_ge
    exact writeBytes_length_ge
  · refine le_trans hbl ?_
    refine le_trans ?_ writeBytes_length_ge
    refine le_trans ?_ writeBytes_length_ge
    refine le_trans ?_ writeBytes_length_ge
    refine le_trans ?_ writeBytes_length_ge
    refine le_trans ?_ writeBytes_length_ge
    refine le_trans ?_ writeBytes_length_ge
    refine le_trans ?_ writeBytes_length_ge
    refine le_trans ?_ writeBytes_length_ge
    exact writeBytes_length_ge

theorem encode_ethernet_header_novlan_props (buffer : List Nat)
    (header : EthernetHeader) (length : Nat)
    (hnv : header.tpid.isSome = false ∨ header.tci.isSome = false)
    (hbl : 22 ≤ buffer.length) :
    ∃ bout : List Nat,
      EncodeSmv.encode_ethernet_header buffer header length = (bout, 22) ∧
      bout.getD 18 0 = 0 ∧ 22 ≤ bout.length := by
  have hred : EncodeSmv.encode_ethernet_header buffer header length =
      (writeBytes (writeBytes (writeBytes (writeBytes (writeBytes
        (writeBytes (writeBytes buffer 0 header.dst_addr) 6 header.src_addr)
        12 header.ether_type) 14 header.appid)
        16 (natToBeBytes 2 (length % 65536))) 18 [0, 0]) 20 [0, 0], 22) := by
    cases htp : header.tpid with
    | none =>
      cases htc : header.tci with
      | none => simp only [EncodeSmv.encode_ethernet_header, htp, htc]
      | some tc => simp only [EncodeSmv.encode_ethernet_header, htp, htc]
    | some tp =>
      cases htc : header.tci with
      | none => simp only [EncodeSmv.encode_ethernet_header, htp, htc]
      | some tc =>
        rcases hnv with hh | hh <;> rw [htp, htc] at * <;> simp at hh
  refine ⟨_, hred, ?_, ?_⟩
  · refine reserved1_byte ?_ (by norm_num)
    refine le_trans (by omega : 18 + 4 ≤ 22) (le_trans hbl ?_)
    refine le_trans ?_ writeBytes_length_ge
    refine le_trans ?_ writeBytes_length_ge
    refine le_trans ?_ writeBytes_length_ge
    refine le_trans ?_ writeBytes_length_ge
    exact writeBytes_length_ge
  · refine le_trans hbl ?_
    refine le_trans ?_ writeBytes_length_ge
    refine le_trans ?_ writeBytes_length_ge
    refine le_trans ?_ writeBytes_length_ge
    refine le_trans ?_ writeBytes_length_ge
    refine le_trans ?_ writeBytes_length_ge
    refine le_trans ?_ writeBytes_length_ge
    exact writeBytes_length_ge

theorem sav_pdu_after_header {bh b : List Nat} {pos off p : Nat} {pdu : SavPdu}
    (hop : off < pos) (hg : bh.getD off 0 = 0) (hlb : off < bh.length)
    (h : EncodeSmv.encode_sav_pdu (if pdu.sim then bh.set off 0x80 else bh)
      pos pdu = .ok (b, p)) :
    b.getD off 0 = if pdu.sim then 0x80 else 0 := by
  cases hsim : pdu.sim with
  | false =>
    rw [hsim] at h
    rw [if_neg (by simp)] at h
    rw [if_neg (by simp)]
    obtain ⟨hle, hpr⟩ := smv_encode_sav_pdu_pres h
    rw [hpr 0 off hop, hg]
  | true =>
    rw [hsim] at h
    rw [if_pos rfl] at h
    rw [if_pos rfl]
    obtain ⟨hle, hpr⟩ := smv_encode_sav_pdu_pres h
    rw [hpr 0 off hop, getD_set_self hlb]

theorem encode_smv_into_reserved1 {header : EthernetHeader} {pdu : SavPdu}
    {buffer b : List Nat} {p : Nat}
    (h : EncodeSmv.encode_smv_into header pdu buffer = .ok (b, p)) :
    b.getD (if header.tpid.isSome && header.tci.isSome then 22 else 18) 0 =
      if pdu.sim then 0x80 else 0 := by
  simp only [EncodeSmv.encode_smv_into] at h
  split at h
  · simp at h
  rename_i hcap
  cases htp : header.tpid with
  | some tp =>
    cases htc : header.tci with
    | some tc =>
      have hsz : 26 ≤ EncodeSmv.smv_size header pdu := by
        simp [EncodeSmv.smv_size, htp, htc]
      have hbl : 26 ≤ buffer.length := by omega
      obtain ⟨bout, hhe, hg, hlen⟩ :=
        encode_ethernet_header_vlan_props buffer header
          (((1 + EncodeSmv.size_length (EncodeSmv.pdu_length pdu) +
            EncodeSmv.pdu_length pdu) % 65536 + 8) % 65536) htp htc hbl
      rw [hhe] at h
      simp only [htp, htc] at h ⊢
      simp at h
      simpa using sav_pdu_after_header (by omega) hg (by omega) h
    | none =>
      have hsz : 22 ≤ EncodeSmv.smv_size header pdu := by
        simp [EncodeSmv.smv_size, htp, htc]
      have hbl : 22 ≤ buffer.length := by omega
      obtain ⟨bout, hhe, hg, hlen⟩ :=
        encode_ethernet_header_novlan_props buffer header
          (((1 + EncodeSmv.size_length (EncodeSmv.pdu_length pdu) +
            EncodeSmv.pdu_length pdu) % 65536 + 8) % 65536)
          (Or.inr (by simp [htc])) hbl
      rw [hhe] at h
      simp only [htp, htc] at h ⊢
      simp at h
      simpa using sav_pdu_after_header (by omega) hg (by omega) h
  | none =>
    have hsz : 22 ≤ EncodeSmv.smv_size header pdu := by
      simp [EncodeSmv.smv_size, htp]
    have hbl : 22 ≤ buffer.length := by omega
    obtain ⟨bout, hhe, hg, hlen⟩ :=
      encode_ethernet_header_novlan_props buffer header
        (((1 + EncodeSmv.size_length (EncodeSmv.pdu_length pdu) +
          EncodeSmv.pdu_length pdu) % 65536 + 8) % 65536)
        (Or.inl (by simp [htp])) hbl
    rw [hhe] at h
    simp only [htp] at h ⊢
    simp at h
    simpa using sav_pdu_after_header (by omega) hg (by omega) h

/-- Claim C8: for every Ethernet header and SMV PDU that encode_smv
successfully encodes, the reserved-1 byte of the produced frame — at
offset 22 when a VLAN tag (TPID and TCI) is present, at offset 18
otherwise — equals 0x80 exactly when the PDU's sim flag is set, and
0x00 otherwise. -/
theorem smv_sim_flag_sets_reserved1_byte
    (header : EthernetHeader) (pdu : SavPdu) (frame : List Nat)
    (henc : EncodeSmv.encode_smv header pdu = .ok frame) :
    frame.getD (if header.tpid.isSome && header.tci.isSome then 22 else 18) 0 =
      if pdu.sim then 0x80 else 0x00 := by
  simp only [EncodeSmv.encode_smv] at henc
  split at henc
  · simp at henc
  · rename_i bb pp heq
    simp only [Except.ok.injEq] at henc
    subst henc
    exact encode_smv_into_reserved1 heq

/-- Witness for claim C8: a concrete VLAN-less header and a sim=true PDU
with one minimal ASDU; the byte at offset 18 of the encoded frame is
0x80. -/
theorem smv_sim_flag_sets_reserved1_byte_witness :
    EncodeSmv.encode_smv smvHeaderNoVlan
      { sim := true
        no_asdu := 1
        security := none
        sav_asdu := [smvMinimalAsdu] } =
      .ok [1, 12, 205, 4, 0, 1, 0, 26, 182, 3, 47, 28, 136, 186, 64, 1,
        0, 31, 128, 0, 0, 0, 96, 21, 128, 1, 1, 162, 16, 48, 14, 128, 1,
        65, 130, 1, 0, 131, 1, 0, 133, 1, 0, 135, 0] ∧
    ([1, 12, 205, 4, 0, 1, 0, 26, 182, 3, 47, 28, 136, 186, 64, 1,
      0, 31, 128, 0, 0, 0, 96, 21, 128, 1, 1, 162, 16, 48, 14, 128, 1,
      65, 130, 1, 0, 131, 1, 0, 133, 1, 0, 135, 0] : List Nat).getD
      (if smvHeaderNoVlan.tpid.isSome && smvHeaderNoVlan.tci.isSome
        then 22 else 18) 0 =
      if ({ sim := true
            no_asdu := 1
            security := none
            sav_asdu := [smvMinimalAsdu] } : SavPdu).sim then 0x80 else 0x00 :=
  ⟨by decide, smv_sim_flag_sets_reserved1_byte smvHeaderNoVlan
    { sim := true
      no_asdu := 1
      security := none
      sav_asdu := [smvMinimalAsdu] }
    [1, 12, 205, 4, 0, 1, 0, 26, 182, 3, 47, 28, 136, 186, 64, 1,
      0, 31, 128, 0, 0, 0, 96, 21, 128, 1, 1, 162, 16, 48, 14, 128, 1,
      65, 130, 1, 0, 131, 1, 0, 133, 1, 0, 135, 0] (by decide)⟩

/-! Helper lemmas for the spec-modelled GOOSE BER codec. -/

theorem natToBeBytes_length : ∀ (w v : Nat), (natToBeBytes w v).length = w := by
  intro w
  induction w with
  | zero => intro v; rfl
  | succ w ih =>
    intro v
    simp only [natToBeBytes, List.length_append, List.length_cons,
      List.length_nil, ih]

theorem beBytesToNat_natToBeBytes :
    ∀ (w v : Nat), v < 2 ^ (8 * w) →
      beBytesToNat (natToBeBytes w v) = v := by
  intro w
  induction w with
  | zero =>
    intro v hv
    simp only [Nat.mul_zero, pow_zero, Nat.lt_one_iff] at hv
    subst hv
    rfl
  | succ w ih =>
    intro v hv
    have hdiv : v / 256 < 2 ^ (8 * w) := by
      have h1 : 2 ^ (8 * (w + 1)) = 2 ^ (8 * w) * 256 := by
        rw [show 8 * (w + 1) = 8 * w + 8 from by ring, pow_add]
        norm_num
      rw [h1] at hv
      omega
    simp only [natToBeBytes, beBytesToNat, List.foldl_append, List.foldl_cons,
      List.foldl_nil]
    have hx : List.foldl (fun acc b => acc * 256 + b) 0
        (natToBeBytes w (v / 256)) = v / 256 := ih (v / 256) hdiv
    rw [hx]
    omega

theorem beBytesToNat_cons_zero (bs : List Nat) :
    beBytesToNat (0 :: bs) = beBytesToNat bs := rfl

theorem encUIntContent_beBytesToNat {v : Nat} (hv : v < 2 ^ 32) :
    beBytesToNat (GooseSpec.encUIntContent v) = v := by
  unfold GooseSpec.encUIntContent GooseSpec.uintWidth
  split_ifs with h1 h2 h3 <;>
    simp only [natToBeBytes, List.nil_append, List.append_assoc,
      List.singleton_append, List.cons_append] <;>
    split_ifs <;>
    simp [beBytesToNat] <;>
    omega

theorem encUIntContent_shape {v : Nat} (hv : v < 2 ^ 32) :
    (1 ≤ (GooseSpec.encUIntContent v).length ∧
      (GooseSpec.encUIntContent v).length ≤ 4) ∨
    ((GooseSpec.encUIntContent v).length = 5 ∧
      (GooseSpec.encUIntContent v).getD 0 0 = 0) := by
  unfold GooseSpec.encUIntContent GooseSpec.uintWidth
  split_ifs <;>
    simp only [natToBeBytes, List.nil_append, List.append_assoc,
      List.singleton_append, List.cons_append] <;>
    split_ifs <;> simp

theorem encUIntContent_length_le (v : Nat) :
    (GooseSpec.encUIntContent v).length ≤ 5 := by
  unfold GooseSpec.encUIntContent GooseSpec.uintWidth
  split_ifs <;>
    simp only [natToBeBytes, List.nil_append, List.append_assoc,
      List.singleton_append, List.cons_append] <;>
    split_ifs <;> simp

theorem intWidth_pos (v : Int) : 1 ≤ GooseSpec.intWidth v := by
  unfold GooseSpec.intWidth
  split_ifs <;> norm_num

theorem intWidth_le (v : Int) : GooseSpec.intWidth v ≤ 8 := by
  unfold GooseSpec.intWidth
  split_ifs <;> norm_num

theorem encIntContent_length (v : Int) :
    (GooseSpec.encIntContent v).length = GooseSpec.intWidth v := by
  simp [GooseSpec.encIntContent, intToBeBytes, natToBeBytes_length]

theorem natToBeBytes_succ_cons : ∀ (w v : Nat),
    natToBeBytes (w + 1) v =
      (v / 256 ^ w % 256) :: natToBeBytes w (v % 256 ^ w) := by
  intro w
  induction w with
  | zero =>
    intro v
    simp [natToBeBytes]
  | succ w ih =>
    intro v
    rw [show natToBeBytes (w + 1 + 1) v =
      natToBeBytes (w + 1) (v / 256) ++ [v % 256] from rfl]
    rw [ih (v / 256)]
    rw [show natToBeBytes (w + 1) (v % 256 ^ (w + 1)) =
      natToBeBytes w (v % 256 ^ (w + 1) / 256) ++ [v % 256 ^ (w + 1) % 256]
      from rfl]
    simp only [List.cons_append]
    have e1 : v / 256 / 256 ^ w = v / 256 ^ (w + 1) := by
      rw [Nat.div_div_eq_div_mul]
      congr 1
      rw [pow_succ]
      ring
    have e2 : v % 256 ^ (w + 1) / 256 = v / 256 % 256 ^ w := by
      rw [show (256 : Nat) ^ (w + 1) = 256 * 256 ^ w from by rw [pow_succ]; ring]
      exact Nat.mod_mul_right_div_self v 256 (256 ^ w)
    have e3 : v % 256 ^ (w + 1) % 256 = v % 256 :=
      Nat.mod_mod_of_dvd v ⟨256 ^ w, by rw [pow_succ]; ring⟩
    rw [e1, e2, e3]

theorem beBytesToInt_natToBeBytes (w v : Nat) (hw : 1 ≤ w)
    (hv : v < 2 ^ (8 * w)) :
    beBytesToInt (natToBeBytes w v) =
      if 2 ^ (8 * w - 1) ≤ v then (v : Int) - 2 ^ (8 * w) else (v : Int) := by
  obtain ⟨u, rfl⟩ : ∃ u, w = u + 1 := ⟨w - 1, by omega⟩
  have hpow : (2 : Nat) ^ (8 * (u + 1)) = 256 ^ (u + 1) := by
    rw [pow_mul]
    norm_num
  have hhead : v / 256 ^ u < 256 := by
    rw [Nat.div_lt_iff_lt_mul (by positivity)]
    calc v < 2 ^ (8 * (u + 1)) := hv
    _ = 256 ^ (u + 1) := hpow
    _ = 256 * 256 ^ u := by rw [pow_succ]; ring
  have hcondeq : (2 : Nat) ^ (8 * (u + 1) - 1) = 128 * 256 ^ u := by
    rw [show 8 * (u + 1) - 1 = 7 + 8 * u from by omega, pow_add, pow_mul]
    norm_num
  have hcond : (128 ≤ v / 256 ^ u) ↔ (2 ^ (8 * (u + 1) - 1) ≤ v) := by
    rw [Nat.le_div_iff_mul_le (by positivity : 0 < 256 ^ u), hcondeq]
  rw [natToBeBytes_succ_cons]
  rw [beBytesToInt]
  rw [← natToBeBytes_succ_cons]
  rw [beBytesToNat_natToBeBytes _ _ hv, natToBeBytes_length]
  rw [Nat.mod_eq_of_lt hhead]
  split_ifs with ha hb hb
  · rfl
  · exact absurd (hcond.mp ha) hb
  · exact absurd (hcond.mpr hb) ha
  · rfl

theorem Int_emod_eq_mod (a b : Int) : a.emod b = a % b := rfl

theorem beBytesToInt_encIntContent {v : Int}
    (h1 : -(2 ^ 63) ≤ v) (h2 : v < 2 ^ 63) :
    beBytesToInt (GooseSpec.encIntContent v) = v := by
  unfold GooseSpec.encIntContent GooseSpec.intWidth intToBeBytes
  split_ifs with hw1 hw2 hw3 hw4 hw5 hw6 hw7
  · rw [beBytesToInt_natToBeBytes 1 _ (by norm_num) (by simp only [Int_emod_eq_mod]; norm_num; omega)]
    norm_num
    simp only [Int_emod_eq_mod]
    split_ifs <;> omega
  · rw [beBytesToInt_natToBeBytes 2 _ (by norm_num) (by simp only [Int_emod_eq_mod]; norm_num; omega)]
    norm_num
    simp only [Int_emod_eq_mod]
    split_ifs <;> omega
  · rw [beBytesToInt_natToBeBytes 3 _ (by norm_num) (by simp only [Int_emod_eq_mod]; norm_num; omega)]
    norm_num
    simp only [Int_emod_eq_mod]
    split_ifs <;> omega
  · rw [beBytesToInt_natToBeBytes 4 _ (by norm_num) (by simp only [Int_emod_eq_mod]; norm_num; omega)]
    norm_num
    simp only [Int_emod_eq_mod]
    split_ifs <;> omega
  · rw [beBytesToInt_natToBeBytes 5 _ (by norm_num) (by simp only [Int_emod_eq_mod]; norm_num; omega)]
    norm_num
    simp only [Int_emod_eq_mod]
    split_ifs <;> omega
  · rw [beBytesToInt_natToBeBytes 6 _ (by norm_num) (by simp only [Int_emod_eq_mod]; norm_num; omega)]
    norm_num
    simp only [Int_emod_eq_mod]
    split_ifs <;> omega
  · rw [beBytesToInt_natToBeBytes 7 _ (by norm_num) (by simp only [Int_emod_eq_mod]; norm_num; omega)]
    norm_num
    simp only [Int_emod_eq_mod]
    split_ifs <;> omega
  · rw [beBytesToInt_natToBeBytes 8 _ (by norm_num) (by simp only [Int_emod_eq_mod]; norm_num; omega)]
    norm_num
    simp only [Int_emod_eq_mod]
    split_ifs <;> omega

theorem encLen_length_pos (n : Nat) : 1 ≤ (GooseSpec.encLen n).length := by
  unfold GooseSpec.encLen
  split_ifs <;> simp

theorem encTLV_length (tag : Nat) (c : List Nat) :
    (GooseSpec.encTLV tag c).length =
      1 + (GooseSpec.encLen c.length).length + c.length := by
  simp [GooseSpec.encTLV]
  omega

theorem encTLV_length_ge_two (tag : Nat) (c : List Nat) :
    2 ≤ (GooseSpec.encTLV tag c).length := by
  rw [encTLV_length]
  have := encLen_length_pos c.length
  omega

theorem encValue_length_ge_two (v : GooseSpec.Value) :
    2 ≤ (GooseSpec.encValue v).length := by
  cases v <;> simp only [GooseSpec.encValue] <;> apply encTLV_length_ge_two

theorem parseTL_encLen (tag n : Nat) (r : List Nat) (h : n < 2 ^ 24) :
    GooseSpec.parseTL (tag :: (GooseSpec.encLen n ++ r)) = some (tag, n, r) := by
  unfold GooseSpec.encLen
  split_ifs with h1 h2 h3
  · simp [GooseSpec.parseTL, h1]
  · simp [GooseSpec.parseTL]
  · have hn : n / 256 * 256 + n % 256 = n := by omega
    simp [GooseSpec.parseTL, hn]
  · have hn : (n / 65536 * 256 + n / 256 % 256) * 256 + n % 256 = n := by
      omega
    simp [GooseSpec.parseTL, hn]

theorem parseTL_encTLV (tag : Nat) (c r : List Nat) (h : c.length < 2 ^ 24) :
    GooseSpec.parseTL (GooseSpec.encTLV tag c ++ r) =
      some (tag, c.length, c ++ r) := by
  have hsplit : GooseSpec.encTLV tag c ++ r =
      tag :: (GooseSpec.encLen c.length ++ (c ++ r)) := by
    simp [GooseSpec.encTLV]
  rw [hsplit, parseTL_encLen _ _ _ h]

theorem parseField_encTLV (tag : Nat) (c r : List Nat)
    (h : c.length < 2 ^ 24) :
    GooseSpec.parseField tag (GooseSpec.encTLV tag c ++ r) = some (c, r) := by
  unfold GooseSpec.parseField
  rw [parseTL_encTLV tag c r h]
  simp [List.take_left, List.drop_left]

theorem parseField_encTLV_nil (tag : Nat) (c : List Nat)
    (h : c.length < 2 ^ 24) :
    GooseSpec.parseField tag (GooseSpec.encTLV tag c) = some (c, []) := by
  rw [(List.append_nil (GooseSpec.encTLV tag c)).symm]
  exact parseField_encTLV tag c [] h

theorem encBool_length (b : Bool) : (GooseSpec.encBool b).length = 1 := by
  simp [GooseSpec.encBool]

theorem encBool_getD_decide (b : Bool) :
    (decide ((GooseSpec.encBool b).getD 0 0 ≠ 0)) = b := by
  cases b <;> rfl

theorem map_reverseBits8_invol {bs : List Nat} (hb : ∀ x ∈ bs, x < 256) :
    (bs.map reverseBits8).map reverseBits8 = bs := by
  rw [List.map_map]
  have hcong : ∀ x ∈ bs, (reverseBits8 ∘ reverseBits8) x = id x := fun x hx =>
    reverseBits8_involutive x (hb x hx)
  rw [List.map_congr_left hcong, List.map_id]

theorem isEmpty_append_encValue (v : GooseSpec.Value) (r : List Nat) :
    (GooseSpec.encValue v ++ r).isEmpty = false := by
  have h2 := encValue_length_ge_two v
  cases h : GooseSpec.encValue v with
  | nil =>
    rw [h] at h2
    simp at h2
  | cons a t => simp

theorem goose_parse_enc : ∀ fuel : Nat,
    (∀ (v : GooseSpec.Value) (rest : List Nat),
      GooseSpec.validValue v = true →
      (GooseSpec.encValue v).length ≤ fuel →
      GooseSpec.parseValue fuel (GooseSpec.encValue v ++ rest) =
        some (v, rest)) ∧
    (∀ vs : List GooseSpec.Value,
      GooseSpec.validValues vs = true →
      (GooseSpec.encValues vs).length < fuel →
      GooseSpec.parseValues fuel (GooseSpec.encValues vs) = some vs) := by
  intro fuel
  induction fuel with
  | zero =>
    constructor
    · intro v rest _ hf
      have := encValue_length_ge_two v
      omega
    · intro vs _ hf
      omega
  | succ f ih =>
    constructor
    · intro v rest hval hf
      cases v with
      | Boolean b =>
        cases b <;>
          simp [GooseSpec.encValue, GooseSpec.parseValue, GooseSpec.encBool,
            parseTL_encTLV, List.take_left, List.drop_left]
      | Int n =>
        simp only [GooseSpec.validValue, Bool.and_eq_true,
          decide_eq_true_eq] at hval
        obtain ⟨hn1, hn2⟩ := hval
        have hlen := encIntContent_length n
        have hp := intWidth_pos n
        have hle := intWidth_le n
        have hrt := beBytesToInt_encIntContent hn1 hn2
        simp only [GooseSpec.encValue, GooseSpec.parseValue]
        rw [parseTL_encTLV _ _ _ (by rw [hlen]; omega)]
        simp [List.take_left, List.drop_left, hlen, hrt, hp, hle]
      | UInt n =>
        simp only [GooseSpec.validValue, decide_eq_true_eq] at hval
        have hsh := encUIntContent_shape hval
        have hrt := encUIntContent_beBytesToNat hval
        have hl5 := encUIntContent_length_le n
        simp only [GooseSpec.encValue, GooseSpec.parseValue]
        rw [parseTL_encTLV _ _ _ (by omega)]
        simp [List.take_left, List.drop_left, hrt]
        intro hgt
        rcases hsh with ⟨ha1, ha4⟩ | ⟨ha5, ha0⟩
        · exact absurd (hgt ha1) (by omega)
        · refine ⟨ha5, ?_⟩
          rw [List.getD_eq_getElem?_getD] at ha0
          exact ha0
      | Float32 bs =>
        simp only [GooseSpec.validValue, decide_eq_true_eq] at hval
        simp only [GooseSpec.encValue, GooseSpec.parseValue]
        rw [parseTL_encTLV _ _ _ (by simp [hval])]
        simp [List.take_left, List.drop_left, hval]
      | Float64 bs =>
        simp only [GooseSpec.validValue, decide_eq_true_eq] at hval
        simp only [GooseSpec.encValue, GooseSpec.parseValue]
        rw [parseTL_encTLV _ _ _ (by simp [hval])]
        simp [List.take_left, List.drop_left, hval]
      | VisibleString s =>
        simp only [GooseSpec.validValue, decide_eq_true_eq] at hval
        simp only [GooseSpec.encValue, GooseSpec.parseValue]
        rw [parseTL_encTLV _ _ _ hval]
        simp [List.take_left, List.drop_left]
      | MmsString s =>
        simp only [GooseSpec.validValue, decide_eq_true_eq] at hval
        simp only [GooseSpec.encValue, GooseSpec.parseValue]
        rw [parseTL_encTLV _ _ _ hval]
        simp [List.take_left, List.drop_left]
      | BitString p bs =>
        simp only [GooseSpec.validValue, Bool.and_eq_true, decide_eq_true_eq,
          List.all_eq_true] at hval
        obtain ⟨⟨hp8, hlen⟩, hbytes⟩ := hval
        have hinv : ((bs.reverse.map reverseBits8).map reverseBits8) =
            bs.reverse :=
          map_reverseBits8_invol (fun x hx =>
            hbytes x (List.mem_reverse.mp hx))
        have hinv2 : bs.reverse.map (reverseBits8 ∘ reverseBits8) =
            bs.reverse := by
          rw [← List.map_map]
          exact hinv
        have hinv3 : List.map (reverseBits8 ∘ reverseBits8) bs = bs := by
          rw [← List.map_map]
          exact map_reverseBits8_invol hbytes
        simp only [GooseSpec.encValue, GooseSpec.parseValue]
        rw [parseTL_encTLV _ _ _ (by simp; omega)]
        simp [List.take_left, List.drop_left, hinv, hinv2, hinv3]
      | OctetString bs =>
        simp only [GooseSpec.validValue, decide_eq_true_eq] at hval
        simp only [GooseSpec.encValue, GooseSpec.parseValue]
        rw [parseTL_encTLV _ _ _ hval]
        simp [List.take_left, List.drop_left]
      | Timestamp bs =>
        simp only [GooseSpec.validValue, decide_eq_true_eq] at hval
        simp only [GooseSpec.encValue, GooseSpec.parseValue]
        rw [parseTL_encTLV _ _ _ (by omega)]
        simp [List.take_left, List.drop_left, hval]
      | Array vs =>
        simp only [GooseSpec.validValue, Bool.and_eq_true,
          decide_eq_true_eq] at hval
        obtain ⟨hv1, hv2⟩ := hval
        simp only [GooseSpec.encValue] at hf
        rw [encTLV_length] at hf
        have hL := encLen_length_pos (GooseSpec.encValues vs).length
        simp only [GooseSpec.encValue, GooseSpec.parseValue]
        rw [parseTL_encTLV _ _ _ hv2]
        simp [List.take_left, List.drop_left, ih.2 vs hv1 (by omega)]
      | Structure vs =>
        simp only [GooseSpec.validValue, Bool.and_eq_true,
          decide_eq_true_eq] at hval
        obtain ⟨hv1, hv2⟩ := hval
        simp only [GooseSpec.encValue] at hf
        rw [encTLV_length] at hf
        have hL := encLen_length_pos (GooseSpec.encValues vs).length
        simp only [GooseSpec.encValue, GooseSpec.parseValue]
        rw [parseTL_encTLV _ _ _ hv2]
        simp [List.take_left, List.drop_left, ih.2 vs hv1 (by omega)]
    · intro vs hval hf
      cases vs with
      | nil => simp [GooseSpec.encValues, GooseSpec.parseValues]
      | cons v vs =>
        simp only [GooseSpec.validValues, Bool.and_eq_true] at hval
        obtain ⟨hv1, hv2⟩ := hval
        have h2 := encValue_length_ge_two v
        simp only [GooseSpec.encValues] at hf ⊢
        have hlen : (GooseSpec.encValue v).length +
            (GooseSpec.encValues vs).length < f + 1 := by
          simpa using hf
        simp [GooseSpec.parseValues, isEmpty_append_encValue,
          ih.1 v (GooseSpec.encValues vs) hv1 (by omega),
          ih.2 vs hv2 (by omega)]

theorem parseGoosePdu_encGoosePdu (g : GooseSpec.GoosePdu)
    (hv : GooseSpec.validPdu g = true) :
    GooseSpec.parseGoosePdu (GooseSpec.encGoosePdu g) = some (g, []) := by
  unfold GooseSpec.validPdu at hv
  simp only [Bool.and_eq_true, decide_eq_true_eq] at hv
  obtain ⟨⟨⟨⟨⟨⟨⟨⟨⟨⟨hcb, hds⟩, hid⟩, ht8⟩, htal⟩, hst⟩, hsq⟩, hcr⟩, hnum⟩,
    hvv⟩, hbody⟩ := hv
  have hQ := (goose_parse_enc ((GooseSpec.encValues g.allData).length + 1)).2
    g.allData hvv (by omega)
  have hu24 : ∀ m : Nat, (GooseSpec.encUIntContent m).length < 2 ^ 24 :=
    fun m => by have := encUIntContent_length_le m; omega
  have hb24 : ∀ b : Bool, (GooseSpec.encBool b).length < 2 ^ 24 :=
    fun b => by rw [encBool_length]; norm_num
  have ht24 : g.t.length < 2 ^ 24 := by omega
  have hAD24 : (GooseSpec.encValues g.allData).length < 2 ^ 24 := by
    have hb := hbody
    simp only [GooseSpec.encGooseBody, List.length_append,
      encTLV_length] at hb
    omega
  unfold GooseSpec.encGoosePdu GooseSpec.parseGoosePdu
  rw [parseField_encTLV_nil _ _ hbody]
  simp only [GooseSpec.encGooseBody, List.append_assoc,
    parseField_encTLV _ _ _ hcb,
    parseField_encTLV _ _ _ hds,
    parseField_encTLV _ _ _ hid,
    parseField_encTLV _ _ _ ht24,
    parseField_encTLV _ _ _ hAD24,
    parseField_encTLV_nil _ _ hAD24,
    parseField_encTLV _ _ _ (hu24 _),
    parseField_encTLV _ _ _ (hb24 _),
    ht8, encBool_length, eq_self_iff_true, if_true, hQ,
    encUIntContent_beBytesToNat htal,
    encUIntContent_beBytesToNat hst,
    encUIntContent_beBytesToNat hsq,
    encUIntContent_beBytesToNat hcr,
    encUIntContent_beBytesToNat hnum,
    encBool_getD_decide]


/-- Claim C2: for every valid GOOSE PDU, parsing the encoded APDU returns
the PDU unchanged with no trailing bytes (numDatSetEntries included), and
the concrete 158-byte reference frame decodes to the reference PDU and
re-encodes byte-for-byte to the original frame. -/
theorem goose_codec_roundtrip :
    (∀ g : GooseSpec.GoosePdu, GooseSpec.validPdu g = true →
      GooseSpec.parseGoosePdu (GooseSpec.encGoosePdu g) = some (g, [])) ∧
    DecodeGoose.decode_ethernet_header referenceGooseFrame =
      (referenceGooseHeader, 26) ∧
    DecodeGoose.decode_goose_pdu referenceGooseFrame 26 =
      some (referenceGoosePdu, []) ∧
    GooseSpec.validPdu referenceGoosePdu = true ∧
    EncodeGoose.encode_goose referenceGooseHeader referenceGoosePdu =
      referenceGooseFrame := by
  refine ⟨parseGoosePdu_encGoosePdu, rfl, rfl, rfl, rfl⟩

/-- Witness for claim C2 at the reference PDU: it is valid and its
encoding parses back to itself. -/
theorem goose_codec_roundtrip_witness :
    GooseSpec.validPdu referenceGoosePdu = true ∧
    GooseSpec.parseGoosePdu (GooseSpec.encGoosePdu referenceGoosePdu) =
      some (referenceGoosePdu, []) :=
  ⟨rfl, goose_codec_roundtrip.1 referenceGoosePdu rfl⟩
